import Mathlib

/-!
Verification development for the Vndro approval-chain order backend
(`functions/index.js`).  The JavaScript source is shallowly embedded:
spreadsheet cells become an inductive `Cell` (string or numeric value),
sheets become lists of rows, the JS string/number coercions used by the
code (`trim`, `toUpperCase`, `parseInt`, `parseFloat`, `Number`, `||`
defaulting) are modelled as executable Lean functions, and each HTTP
handler body becomes a pure function from its inputs and the store state
to a response and a new store state.
-/

namespace Vndro

/-! ## JS string primitives -/

/-- Whitespace characters recognised by the model of JS `trim`. -/
def isWsChar (c : Char) : Bool :=
  c = ' ' || c = '\t' || c = '\n' || c = '\r' || c = '\x0b' || c = '\x0c'

/-- Model of JS `String.prototype.trim` on a character list. -/
def trimChars (l : List Char) : List Char :=
  ((l.dropWhile isWsChar).reverse.dropWhile isWsChar).reverse

/-- Model of JS `trim` on strings. -/
def jsTrim (s : String) : String := ⟨trimChars s.data⟩

/-- ASCII uppercase of one character (model of JS `toUpperCase`). -/
def jsUpChar (c : Char) : Char :=
  if 'a' ≤ c && c ≤ 'z' then Char.ofNat (c.toNat - 32) else c

/-- Model of JS `String.prototype.toUpperCase` (ASCII). -/
def jsUpper (s : String) : String := ⟨s.data.map jsUpChar⟩

/-- ASCII lowercase of one character (model of JS `toLowerCase`). -/
def jsLowChar (c : Char) : Char :=
  if 'A' ≤ c && c ≤ 'Z' then Char.ofNat (c.toNat + 32) else c

/-- Model of JS `String.prototype.toLowerCase` (ASCII). -/
def jsLower (s : String) : String := ⟨s.data.map jsLowChar⟩

/-- The ten decimal digit characters. -/
def digitChars : List Char := ['0', '1', '2', '3', '4', '5', '6', '7', '8', '9']

/-- Decimal digit test. -/
def isDigitChar (c : Char) : Bool := c ∈ digitChars

/-- Value of a list of decimal digit characters, most significant first. -/
def digitsVal (l : List Char) : Nat :=
  l.foldl (fun a c => a * 10 + (c.toNat - 48)) 0

/-- Digit character of a value `< 10`. -/
def toDigitChar (n : Nat) : Char := Char.ofNat (48 + n)

/-- Fuel-based helper for `natDigits` (structural recursion so that the
kernel can evaluate it). -/
def natDigitsAux : Nat → Nat → List Char
  | _, 0 => []
  | n, fuel + 1 =>
    if n < 10 then [toDigitChar n]
    else natDigitsAux (n / 10) fuel ++ [toDigitChar (n % 10)]

/-- Decimal digit expansion of a natural number, most significant first
(model of JS number-to-string conversion for non-negative integers). -/
def natDigits (n : Nat) : List Char := natDigitsAux n (n + 1)

/-- Decimal string of a natural number. -/
def natRepr (n : Nat) : String := ⟨natDigits n⟩

/-- Decimal string of an integer. -/
def intRepr (n : Int) : String :=
  if 0 ≤ n then natRepr n.toNat else "-" ++ natRepr (-n).toNat

/-- Model of JS `parseInt(s, 10)` on a character list: skip leading
whitespace, optional sign, then the longest run of leading digits;
`none` models `NaN`. -/
def jsParseIntChars (l0 : List Char) : Option Int :=
  match l0.dropWhile isWsChar with
  | [] => none
  | c :: rest =>
    if c = '-' then
      let ds := rest.takeWhile isDigitChar
      if ds.isEmpty then none else some (-(digitsVal ds : Int))
    else if c = '+' then
      let ds := rest.takeWhile isDigitChar
      if ds.isEmpty then none else some (digitsVal ds)
    else
      let ds := (c :: rest).takeWhile isDigitChar
      if ds.isEmpty then none else some (digitsVal ds)

/-- Model of JS `parseFloat`: skip whitespace, optional sign, leading
digits, optional decimal point and fraction digits; `none` models `NaN`. -/
def jsParseFloatChars (l0 : List Char) : Option Rat :=
  let l := l0.dropWhile isWsChar
  let sl : Rat × List Char :=
    match l with
    | '-' :: rest => (-1, rest)
    | '+' :: rest => (1, rest)
    | _ => (1, l)
  let ip := sl.2.takeWhile isDigitChar
  let l2 := sl.2.dropWhile isDigitChar
  let fp : List Char :=
    match l2 with
    | '.' :: rest => rest.takeWhile isDigitChar
    | _ => []
  if ip.isEmpty && fp.isEmpty then none
  else some (sl.1 * ((digitsVal ip : Rat) + (digitsVal fp : Rat) / (10 ^ fp.length)))

/-- Model of JS `Number(string)` coercion: the whole (trimmed) string must
be numeric; the empty string coerces to `0`; `none` models `NaN`. -/
def jsNumberChars (l0 : List Char) : Option Rat :=
  let t := trimChars l0
  if t.isEmpty then some 0
  else
    let sl : Rat × List Char :=
      match t with
      | '-' :: rest => (-1, rest)
      | '+' :: rest => (1, rest)
      | _ => (1, t)
    let ip := sl.2.takeWhile isDigitChar
    let l2 := sl.2.dropWhile isDigitChar
    match l2 with
    | [] => if ip.isEmpty then none else some (sl.1 * (digitsVal ip : Rat))
    | '.' :: rest =>
      let fp := rest.takeWhile isDigitChar
      let r2 := rest.dropWhile isDigitChar
      if r2.isEmpty && !(ip.isEmpty && fp.isEmpty) then
        some (sl.1 * ((digitsVal ip : Rat) + (digitsVal fp : Rat) / (10 ^ fp.length)))
      else none
    | _ => none

/-- Truncation toward zero (JS number-to-int behaviour of `parseInt` on a
numeric argument's decimal rendering). -/
def ratTrunc (v : Rat) : Int := if 0 ≤ v then v.floor else v.ceil

/-! ## Cells, rows and sheets

The Sheets API hands cell values to the JS code as strings or numbers; a
`Cell` is one such dynamic value. -/

inductive Cell where
  | s (v : String)
  | n (v : Rat)
deriving DecidableEq, Repr

/-- String rendering of a cell (JS `toString`). -/
def cellStr : Cell → String
  | .s v => v
  | .n v => if v.den = 1 then intRepr v.num else intRepr v.num ++ "/" ++ natRepr v.den

/-- JS falsiness of a cell value (`''` and `0` are falsy). -/
def cellFalsy : Cell → Bool
  | .s v => v = ""
  | .n v => v = 0

/-- A spreadsheet row; columns A..K are indices 0..10. -/
abbrev Row := List Cell

/-- A sheet: the stored grid, row 0 being the header row. -/
abbrev Sheet := List Row

/-- Cell at column `i` of a row; a missing cell reads as the empty string
(JS `undefined` under the `|| ''` / `get` coercions used by the code). -/
def cellAt (row : Row) (i : Nat) : Cell := row.getD i (Cell.s "")

/-- JS `x || ''` on a cell: a falsy cell becomes the empty string. -/
def cellOr (c : Cell) : Cell := if cellFalsy c then Cell.s "" else c

/-- JS `Number(cell)` coercion. -/
def cellToNum : Cell → Option Rat
  | .n v => some v
  | .s t => jsNumberChars t.data

/-- JS `parseFloat(cell)`. -/
def parseFloatCell : Cell → Option Rat
  | .n v => some v
  | .s t => jsParseFloatChars t.data

/-- JS `parseFloat(cell) || 0`. -/
def pF0 (c : Cell) : Rat := (parseFloatCell c).getD 0

/-- JS `parseFloat(cell) || fallback` (`NaN`, `0` and `-0` all fall back). -/
def jsOrRat (o : Option Rat) (b : Rat) : Rat :=
  match o with
  | some v => if v = 0 then b else v
  | none => b

/-- JS `parseInt(cell)`. -/
def jsParseIntCell : Cell → Option Int
  | .n v => some (ratTrunc v)
  | .s t => jsParseIntChars t.data

/-- JS `parseInt(cell) || 0`. -/
def pIntD (c : Cell) : Int := (jsParseIntCell c).getD 0

/-! ## Dates

The code windows every scan to the current calendar month via
`isSameMonth`; only the year/month pair of a decoded date is ever
compared, so dates are modelled at year/month granularity. -/

structure Ym where
  y : Int
  m : Nat
deriving DecidableEq, Repr

/-- Year and month (1..12) of a day count since the Unix epoch
(civil-from-days; models `Date.prototype.getFullYear`/`getMonth`). -/
def civilYm (z : Int) : Ym :=
  let zz : Int := z + 719468 + 1460970000
  if zz < 0 then ⟨0, 1⟩
  else
    let nn : Nat := zz.toNat
    let era : Nat := nn / 146097
    let doe : Nat := nn % 146097
    let yoe : Nat := (doe - doe / 1460 + doe / 36524 - doe / 146096) / 365
    let doy : Nat := doe - (365 * yoe + yoe / 4 - yoe / 100)
    let mp : Nat := (5 * doy + 2) / 153
    let m : Nat := if mp < 10 then mp + 3 else mp - 9
    let y : Int := (era * 400 + yoe : Nat) - 4000000 + (if m ≤ 2 then 1 else 0)
    ⟨y, m⟩

/-- Model of `serialToDate`: spreadsheet day-serial with epoch 1899-12-30,
reduced to year/month (day 25569 is 1970-01-01). -/
def serialYmOfNum (q : Rat) : Ym := civilYm (q.floor - 25569)

/-- Year/month of a JS millisecond timestamp (`new Date(number)`). -/
def msYm (v : Rat) : Ym := civilYm ((v / 86400000).floor)

/-- Parse the year/month of a `YYYY-MM-DD[ ...]` text timestamp, the format
this system writes (`sv-SE` locale); `none` models an invalid date. -/
def parseYmd (l : List Char) : Option Ym :=
  match l with
  | y1 :: y2 :: y3 :: y4 :: '-' :: m1 :: m2 :: '-' :: d1 :: d2 :: rest =>
    if [y1, y2, y3, y4, m1, m2, d1, d2].all isDigitChar then
      let y := digitsVal [y1, y2, y3, y4]
      let m := digitsVal [m1, m2]
      let d := digitsVal [d1, d2]
      let restOk : Bool :=
        match rest with
        | [] => true
        | ' ' :: _ => true
        | 'T' :: _ => true
        | _ => false
      if 1 ≤ m && m ≤ 12 && 1 ≤ d && d ≤ 31 && restOk then some ⟨y, m⟩ else none
    else none
  | _ => none

/-- Model of `new Date(cell)` reduced to year/month. -/
def jsDateCellYm : Cell → Option Ym
  | .n v => some (msYm v)
  | .s t => parseYmd (trimChars t.data)

/-- The date-decoding snippet every scan loop repeats:
`!cell ? null : (!isNaN(cell) && Number(cell) > 30000) ?
serialToDate(Number(cell)) : new Date(cell)`, with `null` / invalid dates
both mapped to `none`. -/
def decodeDateCell (c : Cell) : Option Ym :=
  if cellFalsy c then none
  else
    match cellToNum c with
    | some q => if 30000 < q then some (serialYmOfNum q) else jsDateCellYm c
    | none => jsDateCellYm c

/-- `isSameMonth` applied to a decoded row date: the row passes a scan's
month window iff its column-A cell decodes to the current year/month. -/
def rowMonthOk (now : Ym) (row : Row) : Bool :=
  match decodeDateCell (cellAt row 0) with
  | some ym => ym = now
  | none => false

/-! ## Serial generator (`getNextOrderSerial`)

Reads `Serial Numbers!B2`, increments, writes back.  The read result is
modelled as `Option Cell`: `none` covers both a failed read and a blank
cell (the code maps both to the empty string). -/

/-- `upper.startsWith('AA')` on a character list. -/
def startsAA : List Char → Bool
  | c1 :: c2 :: _ => c1 = 'A' && c2 = 'A'
  | _ => false

/-- Model of `getNextOrderSerial`: the returned serial string, which the
code also writes back to the counter cell verbatim. -/
def getNextOrderSerial (cell : Option Cell) : String :=
  let cur := trimChars (match cell with | some c => (cellStr c).data | none => [])
  let upper := cur.map jsUpChar
  let currentNum : Nat :=
    if startsAA upper then
      match jsParseIntChars (trimChars (upper.drop 2)) with
      | some p => if 0 ≤ p then p.toNat else 0
      | none => 0
    else 0
  ⟨'A' :: 'A' :: natDigits (currentNum + 1)⟩

/-! ## Master credential store (`findClientTabAndSheetIdByUser`,
`getUserInfoByUsername`)

The master spreadsheet has one tab per client; each tab holds credential
rows (read from `A2:Z`, so row 0 of `rows` is already a data row) and the
client's budget-sheet id in cell `F2`. -/

structure CredTab where
  title : String
  rows : List Row
  f2 : Cell
deriving DecidableEq, Repr

structure UserInfo where
  tab : String
  branch : String
  restricted : Bool
  level : String
  paperMode : Bool
  budgetSheetId : String
deriving DecidableEq, Repr

/-- Field extraction for a matched credential row. -/
def mkUserInfo (t : CredTab) (row : Row) (budgetSheetId : String) : UserInfo :=
  { tab := t.title
    branch := jsTrim (cellStr (cellOr (cellAt row 2)))
    restricted := jsUpper (jsTrim (cellStr (cellOr (cellAt row 3)))) = "Y"
    level :=
      (let lv := jsUpper (jsTrim (cellStr (cellOr (cellAt row 4))))
       if lv = "" then "L1" else lv)
    paperMode := jsUpper (jsTrim (cellStr (cellOr (cellAt row 25)))) = "Y"
    budgetSheetId := budgetSheetId }

/-- The budget-sheet id resolved from a tab's `F2` cell. -/
def tabSheetId (t : CredTab) : String := jsTrim (cellStr (cellOr t.f2))

/-- Row scan of one tab for the login lookup (username and password must
both match; rows with both cells blank are skipped; a blank `F2` throws). -/
def loginScanRows (t : CredTab) (username password : String) :
    List Row → Except String (Option UserInfo)
  | [] => .ok none
  | row :: rest =>
    let u := jsTrim (cellStr (cellOr (cellAt row 0)))
    let p := cellStr (cellOr (cellAt row 1))
    if u = "" ∧ p = "" then loginScanRows t username password rest
    else if u = username ∧ p = password then
      if tabSheetId t = "" then .error ("BudgetSheetId missing in " ++ t.title ++ "!F2")
      else .ok (some (mkUserInfo t row (tabSheetId t)))
    else loginScanRows t username password rest

/-- Client tabs: every tab except the reserved `Config` and `Readme`. -/
def clientTabs (tabs : List CredTab) : List CredTab :=
  tabs.filter (fun t => !(t.title = "Config" || t.title = "Readme"))

/-- Tab scan for `findClientTabAndSheetIdByUser` (first match wins). -/
def findClientTabGo (username password : String) :
    List CredTab → Except String (Option UserInfo)
  | [] => .ok none
  | t :: rest =>
    match loginScanRows t username password t.rows with
    | .error e => .error e
    | .ok (some info) => .ok (some info)
    | .ok none => findClientTabGo username password rest

/-- Model of `findClientTabAndSheetIdByUser`. -/
def findClientTabAndSheetIdByUser (tabs : List CredTab) (username password : String) :
    Except String (Option UserInfo) :=
  findClientTabGo username password (clientTabs tabs)

/-- Row scan of one tab for `getUserInfoByUsername` (username only). -/
def userScanRows (t : CredTab) (username : String) :
    List Row → Except String (Option UserInfo)
  | [] => .ok none
  | row :: rest =>
    let u := jsTrim (cellStr (cellOr (cellAt row 0)))
    if u = "" then userScanRows t username rest
    else if u = username then
      if tabSheetId t = "" then .error ("BudgetSheetId missing in " ++ t.title ++ "!F2")
      else .ok (some (mkUserInfo t row (tabSheetId t)))
    else userScanRows t username rest

/-- Tab scan for `getUserInfoByUsername`. -/
def getUserInfoGo (username : String) : List CredTab → Except String (Option UserInfo)
  | [] => .ok none
  | t :: rest =>
    match userScanRows t username t.rows with
    | .error e => .error e
    | .ok (some info) => .ok (some info)
    | .ok none => getUserInfoGo username rest

/-- Model of `getUserInfoByUsername`. -/
def getUserInfoByUsername (tabs : List CredTab) (username : String) :
    Except String (Option UserInfo) :=
  getUserInfoGo username (clientTabs tabs)

/-! ## HTTP responses and the per-client order store -/

/-- The observable part of an HTTP response: status code, `success` flag,
localized `message` and, for `submitOrder`, the returned serial. -/
structure Resp where
  status : Nat
  success : Bool
  message : String
  orderSerial : Option String
deriving DecidableEq, Repr

def mkFail (status : Nat) (message : String) : Resp :=
  ⟨status, false, message, none⟩

def okResp : Resp := ⟨200, true, "", none⟩

/-- A client's order store: the three logical sheets and the serial
counter cell `Serial Numbers!B2`. -/
structure Store where
  waiting : Sheet
  finalOrders : Sheet
  cancelled : Sheet
  serialCell : Option Cell
deriving DecidableEq, Repr

/-! ## Tabular store operations (`appendRowsAtoK`, clearing, cell writes) -/

/-- Eleven empty cells: the value written to clear a row `A:K`. -/
def blank11 : Row := List.replicate 11 (Cell.s "")

/-- Overwrite columns A..K of a row with an 11-cell value, keeping any
cells beyond column K. -/
def writeRowAtoK (old new : Row) : Row := new.take 11 ++ old.drop 11

/-- Overwrite columns A..K of consecutive grid rows with `vals`,
extending the grid if `vals` runs past its end. -/
def overwriteRows : Sheet → List Row → Sheet
  | s, [] => s
  | [], v :: vs => writeRowAtoK [] v :: overwriteRows [] vs
  | r :: rs, v :: vs => writeRowAtoK r v :: overwriteRows rs vs

/-- Write `vals` into the grid starting at (0-based) row `start`,
overwriting columns A..K of each touched row and extending the grid as
needed. -/
def setRowsFrom (s : Sheet) (start : Nat) (vals : List Row) : Sheet :=
  match s, start with
  | s, 0 => overwriteRows s vals
  | [], n + 1 => [] :: setRowsFrom [] n vals
  | r :: rs, n + 1 => r :: setRowsFrom rs n vals

/-- Column-A blankness test used by the append scan. -/
def rowColABlank (r : Row) : Bool := jsTrim (cellStr (cellAt r 0)) = ""

/-- 1-based index of the last row whose column A is non-blank (`0` if
none): the bottom-up scan of `appendRowsAtoK`. -/
def lastNonEmptyRowA (s : Sheet) : Nat := (s.reverse.dropWhile rowColABlank).length

/-- Model of `appendRowsAtoK`: write the rows right below the last
non-blank column-A row, spanning columns A..K. -/
def appendRowsAtoK (sheet : Sheet) (vals : List Row) : Sheet :=
  if vals = [] then sheet else setRowsFrom sheet (lastNonEmptyRowA sheet) vals

/-- The 11-cell copy `[get(row,0), …, get(row,10)]` taken of a source row
before appending (missing cells become empty strings). -/
def pad11 (r : Row) : Row := (List.range 11).map (fun i => cellAt r i)

/-- `(row[10] || '').toString().trim()`: the serial column of a row. -/
def serialAt (row : Row) : String := jsTrim (cellStr (cellOr (cellAt row 10)))

/-- The row indices collected by the approve/cancel scan: data rows
(`i ≥ 1`) in the current month whose serial column matches. -/
def serialScan (rows : Sheet) (orderSerial : String) (now : Ym) : List Nat :=
  ((List.range rows.length).drop 1).filter
    (fun i => rowMonthOk now (rows.getD i []) && serialAt (rows.getD i []) == orderSerial)

/-- Clear the given rows in place (columns A..K become empty strings). -/
def clearRows (s : Sheet) (idxs : List Nat) : Sheet :=
  idxs.foldl (fun sh i => sh.set i (writeRowAtoK (sh.getD i []) blank11)) s

/-- Write one cell of a row, padding with empty cells if the row is
shorter than the target column. -/
def setCellInRow (r : Row) (j : Nat) (c : Cell) : Row :=
  if j < r.length then r.set j c
  else r ++ List.replicate (j - r.length) (Cell.s "") ++ [c]

/-- Write one cell of the grid. -/
def setSheetCell (sh : Sheet) (i col : Nat) (c : Cell) : Sheet :=
  sh.set i (setCellInRow (sh.getD i []) col c)

/-! ## Order identifiers in requests -/

/-- Model of JS `split('__')`: cut at each non-overlapping leftmost
occurrence of a double underscore. -/
def splitUUGo : List Char → List Char → List (List Char)
  | acc, [] => [acc.reverse]
  | acc, '_' :: '_' :: rest => acc.reverse :: splitUUGo [] rest
  | acc, c :: rest => splitUUGo (c :: acc) rest

/-- JS `composite.split('__')` as strings. -/
def jsSplitUU (s : String) : List String :=
  (splitUUGo [] s.data).map (fun l => ⟨l⟩)

/-- `composite.split('__')[0].trim()`: the serial part of an `orderId`. -/
def parseOrderIdSerial (composite : String) : String :=
  jsTrim ((jsSplitUU composite).getD 0 "")

/-- `(split('__')[1] || '').trim().toLowerCase()`, defaulted to
`"waiting"`. -/
def parseOrderIdStatus (composite : String) : String :=
  let s := jsLower (jsTrim ((jsSplitUU composite).getD 1 ""))
  if s = "" then "waiting" else s

/-! ## `POST /api/validateLogin` -/

/-- Model of the login endpoint body.  A failed credential lookup answers
with the default 200 status (`res.json` without `res.status`); a thrown
store/configuration error is caught and becomes 500. -/
def validateLogin (tabs : List CredTab) (username password : String) : Resp :=
  match findClientTabAndSheetIdByUser tabs username password with
  | .error _ => mkFail 500 "حدث خطأ في النظام"
  | .ok none => ⟨200, false, "اسم المستخدم أو كلمة المرور غير صحيحة", none⟩
  | .ok (some _) => okResp

/-! ## `POST /api/approveOrder` and `POST /api/cancelOrder` -/

/-- Model of the approve endpoint body. -/
def approveOrder (tabs : List CredTab) (username orderIdOrSerial : String)
    (st : Store) (now : Ym) : Resp × Store :=
  let orderSerial := parseOrderIdSerial orderIdOrSerial
  let status := parseOrderIdStatus orderIdOrSerial
  if username = "" ∨ orderSerial = "" then (mkFail 400 "البيانات غير مكتملة", st)
  else if status ≠ "waiting" then (mkFail 400 "لا يمكن اعتماد طلب بهذه الحالة", st)
  else
    match getUserInfoByUsername tabs username with
    | .error _ => (mkFail 500 "حدث خطأ أثناء اعتماد الطلب", st)
    | .ok none => (mkFail 400 "المستخدم غير موجود", st)
    | .ok (some info) =>
      if jsUpper info.level ≠ "L2" then (mkFail 403 "غير مسموح بالموافقة على الطلبات", st)
      else
        let idxs := serialScan st.waiting orderSerial now
        if idxs = [] then (mkFail 400 "لا يوجد طلبات معلقة لهذا الرقم في هذا الشهر", st)
        else
          let appendValues := idxs.map (fun i => pad11 (st.waiting.getD i []))
          (okResp,
           { st with
             finalOrders := appendRowsAtoK st.finalOrders appendValues
             waiting := clearRows st.waiting idxs })

/-- Model of the cancel endpoint body (same move-and-clear, target
`Cancelled Orders`). -/
def cancelOrder (tabs : List CredTab) (username orderId : String)
    (st : Store) (now : Ym) : Resp × Store :=
  let orderSerial := parseOrderIdSerial orderId
  let status := parseOrderIdStatus orderId
  if username = "" ∨ orderSerial = "" then (mkFail 400 "البيانات غير مكتملة", st)
  else if status ≠ "waiting" then (mkFail 400 "لا يمكن إلغاء طلب بهذه الحالة", st)
  else
    match getUserInfoByUsername tabs username with
    | .error _ => (mkFail 500 "حدث خطأ أثناء إلغاء الطلب", st)
    | .ok none => (mkFail 400 "المستخدم غير موجود", st)
    | .ok (some info) =>
      if jsUpper info.level ≠ "L2" then (mkFail 403 "غير مسموح بإلغاء الطلبات", st)
      else
        let idxs := serialScan st.waiting orderSerial now
        if idxs = [] then (mkFail 400 "لا يوجد طلبات معلقة لهذا الرقم في هذا الشهر", st)
        else
          let appendValues := idxs.map (fun i => pad11 (st.waiting.getD i []))
          (okResp,
           { st with
             cancelled := appendRowsAtoK st.cancelled appendValues
             waiting := clearRows st.waiting idxs })

/-! ## `POST /api/updateWaitingOrder` -/

/-- One edit item of an update request. -/
structure UpdItem where
  productCode : String
  quantity : Cell
deriving DecidableEq, Repr

/-- One step of the `index[code] = i` loop (later rows overwrite earlier
ones; the most recent binding is kept at the head). -/
def updIndexStep (rows : Sheet) (orderSerial : String) (now : Ym)
    (acc : List (String × Nat)) (i : Nat) : List (String × Nat) :=
  let row := rows.getD i []
  if rowMonthOk now row then
    if serialAt row == orderSerial then
      if cellFalsy (cellAt row 3) then acc
      else (cellStr (cellAt row 3), i) :: acc
    else acc
  else acc

/-- The combined row condition of the update scan (current month,
matching serial, non-falsy product-code cell). -/
def updRowHit (rows : Sheet) (orderSerial : String) (now : Ym) (i : Nat) : Bool :=
  rowMonthOk now (rows.getD i []) && (serialAt (rows.getD i []) == orderSerial) &&
    !cellFalsy (cellAt (rows.getD i []) 3)

/-- The product-code → row-index map built by the update scan. -/
def updIndex (rows : Sheet) (orderSerial : String) (now : Ym) : List (String × Nat) :=
  ((List.range rows.length).drop 1).foldl (updIndexStep rows orderSerial now) []

/-- `index[code]` lookup (the last matching row wins). -/
def updIndexLookup (rows : Sheet) (orderSerial : String) (now : Ym)
    (code : String) : Option Nat :=
  ((updIndex rows orderSerial now).find? (fun e => e.1 == code)).map (·.2)

/-- One request item's contribution to the update batch. -/
def updBatchStep (rows : Sheet) (orderSerial : String) (now : Ym)
    (acc : List (Nat × Nat × Rat)) (item : UpdItem) : List (Nat × Nat × Rat) :=
  if item.productCode = "" then acc
  else
    match updIndexLookup rows orderSerial now item.productCode with
    | none => acc
    | some rowIdx =>
      let row := rows.getD rowIdx []
      let unitPrice := pF0 (cellAt row 5)
      let qty : Nat := (max 0 ((jsParseIntCell item.quantity).getD 0)).toNat
      let subtotal := unitPrice * (qty : Rat)
      acc ++ [(rowIdx, qty, subtotal)]

/-- The batch of `(rowIndex, quantity, subtotal)` writes assembled from
the request items. -/
def updBatch (rows : Sheet) (orderSerial : String) (now : Ym)
    (items : List UpdItem) : List (Nat × Nat × Rat) :=
  items.foldl (updBatchStep rows orderSerial now) []

/-- Apply the batch: write column I (index 8) and column G (index 6) of
each targeted row. -/
def applyBatch (s : Sheet) (batch : List (Nat × Nat × Rat)) : Sheet :=
  batch.foldl
    (fun sh e => setSheetCell (setSheetCell sh e.1 8 (Cell.n e.2.1)) e.1 6 (Cell.n e.2.2))
    s

/-- Model of the update endpoint body. -/
def updateWaitingOrder (tabs : List CredTab) (username orderId : String)
    (items : List UpdItem) (st : Store) (now : Ym) : Resp × Store :=
  let orderSerial := parseOrderIdSerial orderId
  let status := parseOrderIdStatus orderId
  if username = "" ∨ orderSerial = "" ∨ items = [] then
    (mkFail 400 "البيانات غير مكتملة", st)
  else if status ≠ "waiting" then (mkFail 400 "لا يمكن تعديل طلب بهذه الحالة", st)
  else
    match getUserInfoByUsername tabs username with
    | .error _ => (mkFail 500 "حدث خطأ أثناء حفظ التعديلات", st)
    | .ok none => (mkFail 400 "المستخدم غير موجود", st)
    | .ok (some info) =>
      if jsUpper info.level ≠ "L2" then (mkFail 403 "غير مسموح بتعديل الطلبات", st)
      else
        let batch := updBatch st.waiting orderSerial now items
        if batch = [] then (mkFail 400 "لم يتم العثور على بنود لتعديلها", st)
        else (okResp, { st with waiting := applyBatch st.waiting batch })

/-! ## `POST /api/submitOrder` -/

/-- One submitted order item (JSON body fields; `none` models an absent
or non-numeric field). -/
structure OrderItem where
  productCode : String
  productName : String
  unitPrice : Option Rat
  quantity : Option Rat
  subtotal : Option Rat
  category : Option String
deriving DecidableEq, Repr

/-- The 11-cell row written for one submitted item. -/
def submitRowOf (dateString branchName username serial : String) (i : OrderItem) : Row :=
  let price := i.unitPrice.getD 0
  let qty := i.quantity.getD 0
  let subtotal := i.subtotal.getD (price * qty)
  [Cell.s dateString, Cell.s branchName, Cell.s username, Cell.s i.productCode,
   Cell.s i.productName, Cell.n price, Cell.n subtotal, Cell.s (i.category.getD ""),
   Cell.n qty, Cell.s "", Cell.s serial]

/-- Model of the submit endpoint body: `dateString` is the formatted
current time written into column A. -/
def submitOrder (tabs : List CredTab) (username branchName : String)
    (orderItems : List OrderItem) (st : Store) (dateString : String) : Resp × Store :=
  if branchName = "" ∨ orderItems = [] then (mkFail 400 "بيانات الطلب غير مكتملة", st)
  else
    match getUserInfoByUsername tabs username with
    | .error _ => (mkFail 500 "حدث خطأ أثناء إرسال الطلب", st)
    | .ok none => (mkFail 400 "بيانات المستخدم غير صحيحة", st)
    | .ok (some info) =>
      let userLevel := jsUpper (if info.level = "" then "L1" else info.level)
      if userLevel ≠ "L2" ∧ jsTrim info.branch ≠ "" ∧ jsTrim info.branch ≠ branchName then
        (mkFail 403 "غير مسموح لك بالطلب لهذا الفرع", st)
      else
        let orderSerial := getNextOrderSerial st.serialCell
        let appendValues := orderItems.map (submitRowOf dateString branchName username orderSerial)
        if userLevel = "L2" then
          ({ okResp with orderSerial := some orderSerial },
           { st with
             finalOrders := appendRowsAtoK st.finalOrders appendValues
             serialCell := some (Cell.s orderSerial) })
        else
          ({ okResp with orderSerial := some orderSerial },
           { st with
             waiting := appendRowsAtoK st.waiting appendValues
             serialCell := some (Cell.s orderSerial) })

/-! ## `GET /api/approvalsSummary` -/

/-- `parseFloat(row[6]) || unitPrice * qty`: the subtotal a scan reports
for a row. -/
def rowSubtotal (row : Row) : Rat :=
  jsOrRat (parseFloatCell (cellAt row 6)) (pF0 (cellAt row 5) * (pIntD (cellAt row 8) : Rat))

structure BranchSummary where
  branchName : String
  totalAmount : Rat
  totalQty : Int
  lines : Nat
deriving DecidableEq, Repr

/-- Add one row's numbers to its branch bucket (insertion order kept). -/
def bumpBranch : List BranchSummary → String → Rat → Int → List BranchSummary
  | [], b, sub, qty => [⟨b, sub, qty, 1⟩]
  | e :: rest, b, sub, qty =>
    if e.branchName = b then
      { e with
        totalAmount := e.totalAmount + sub
        totalQty := e.totalQty + qty
        lines := e.lines + 1 } :: rest
    else e :: bumpBranch rest b sub qty

/-- One loop iteration of the approvals summary scan. -/
def approvalsSummaryStep (now : Ym) (acc : List BranchSummary) (row : Row) :
    List BranchSummary :=
  if rowMonthOk now row then
    let branch := jsTrim (cellStr (cellOr (cellAt row 1)))
    if branch = "" then acc
    else bumpBranch acc branch (rowSubtotal row) (pIntD (cellAt row 8))
  else acc

/-- The branch totals computed from the `Waiting for Approval` sheet. -/
def approvalsSummaryCore (rows : Sheet) (now : Ym) : List BranchSummary :=
  (rows.drop 1).foldl (approvalsSummaryStep now) []

/-- Model of the approvals-summary endpoint body. -/
def approvalsSummary (tabs : List CredTab) (username : String)
    (st : Store) (now : Ym) : Resp × List BranchSummary :=
  let u := jsTrim username
  if u = "" then (mkFail 400 "Missing username", [])
  else
    match getUserInfoByUsername tabs u with
    | .error _ => (mkFail 500 "حدث خطأ أثناء تحميل طلبات الموافقة", [])
    | .ok none => (mkFail 400 "المستخدم غير موجود", [])
    | .ok (some info) =>
      if jsUpper info.level ≠ "L2" then
        (mkFail 403 "غير مسموح بالموافقة على الطلبات", [])
      else (okResp, approvalsSummaryCore st.waiting now)

/-! ## `GET /api/pendingOrders` grouping -/

/-- One reported order line without an image URL. -/
structure LineItem where
  productCode : Cell
  productName : Cell
  unitPrice : Rat
  quantity : Int
  subtotal : Rat
  category : Cell
deriving DecidableEq, Repr

def lineItemOf (row : Row) : LineItem :=
  { productCode := cellAt row 3
    productName := cellAt row 4
    unitPrice := pF0 (cellAt row 5)
    quantity := pIntD (cellAt row 8)
    subtotal := rowSubtotal row
    category := cellOr (cellAt row 7) }

structure PendingEntry where
  branchName : String
  total : Rat
  createdAt : Ym
  requestors : List String
  items : List LineItem
deriving DecidableEq, Repr

/-- `Set.add` of a requestor (skip blanks, keep insertion order). -/
def addRequestor (l : List String) (u : String) : List String :=
  if u = "" then l else if u ∈ l then l else l ++ [u]

/-- Strict order on year/month pairs (`date < entry.createdAt`). -/
def ymLt (a b : Ym) : Bool := a.y < b.y || (a.y = b.y && a.m < b.m)

def bumpPending : List PendingEntry → String → Ym → String → LineItem → List PendingEntry
  | [], b, d, req, item => [⟨b, item.subtotal, d, addRequestor [] req, [item]⟩]
  | e :: rest, b, d, req, item =>
    if e.branchName = b then
      { e with
        total := e.total + item.subtotal
        items := e.items ++ [item]
        requestors := addRequestor e.requestors req
        createdAt := if ymLt d e.createdAt then d else e.createdAt } :: rest
    else e :: bumpPending rest b d req item

/-- One loop iteration of the pending-orders grouping scan. -/
def pendingStep (now : Ym) (acc : List PendingEntry) (row : Row) : List PendingEntry :=
  match decodeDateCell (cellAt row 0) with
  | none => acc
  | some d =>
    if d = now then
      let branchName := jsTrim (cellStr (cellOr (cellAt row 1)))
      if branchName = "" then acc
      else bumpPending acc branchName d (jsTrim (cellStr (cellOr (cellAt row 2)))) (lineItemOf row)
    else acc

/-- The per-branch pseudo-orders built from `Waiting for Approval`. -/
def pendingOrdersCore (rows : Sheet) (now : Ym) : List PendingEntry :=
  (rows.drop 1).foldl (pendingStep now) []

/-! ## `GET /api/orderDetailsForL2` scan -/

/-- A reported order line with its catalog image. -/
structure LineItemImg where
  productCode : Cell
  productName : Cell
  unitPrice : Rat
  quantity : Int
  subtotal : Rat
  category : Cell
  imageUrl : Cell
deriving DecidableEq, Repr

/-- `codeToImage[row[0]] = row[4] || ''` over the catalog rows (the most
recent binding is kept at the head, as JS assignment overwrites). -/
def catImageMap (productRows : Sheet) : List (String × Cell) :=
  (productRows.drop 1).foldl
    (fun acc row => (cellStr (cellAt row 0), cellOr (cellAt row 4)) :: acc) []

/-- `codeToImage[productCode] || ''`. -/
def catLookup (m : List (String × Cell)) (code : Cell) : Cell :=
  match m.find? (fun e => e.1 == cellStr code) with
  | some e => cellOr e.2
  | none => Cell.s ""

def lineItemImgOf (cmap : List (String × Cell)) (row : Row) : LineItemImg :=
  { productCode := cellAt row 3
    productName := cellAt row 4
    unitPrice := pF0 (cellAt row 5)
    quantity := pIntD (cellAt row 8)
    subtotal := rowSubtotal row
    category := cellOr (cellAt row 7)
    imageUrl := catLookup cmap (cellAt row 3) }

/-- One loop iteration of the order-details scan.  The accumulator is the
item list plus the effective branch name. -/
def orderDetailsStep (cmap : List (String × Cell)) (now : Ym)
    (serialQuery branchNameQuery : String)
    (acc : List LineItemImg × String) (row : Row) : List LineItemImg × String :=
  if rowMonthOk now row then
    let rowBranch := jsTrim (cellStr (cellOr (cellAt row 1)))
    let rowSerial := serialAt row
    if serialQuery ≠ "" then
      if rowSerial = serialQuery then
        let eff := if acc.2 = "" && rowBranch ≠ "" then rowBranch else acc.2
        (acc.1 ++ [lineItemImgOf cmap row], eff)
      else acc
    else if rowBranch = branchNameQuery then (acc.1 ++ [lineItemImgOf cmap row], acc.2)
    else acc
  else acc

/-- The order-details scan of one status sheet. -/
def orderDetailsCore (cmap : List (String × Cell)) (rows : Sheet) (now : Ym)
    (serialQuery branchNameQuery : String) : List LineItemImg × String :=
  (rows.drop 1).foldl (orderDetailsStep cmap now serialQuery branchNameQuery)
    ([], branchNameQuery)

/-! ## `GET /api/ordersSummaryForL2` grouping -/

structure SummaryEntry where
  serial : String
  branchName : String
  status : String
  total : Rat
  createdAt : Ym
  requestors : List String
  items : List LineItemImg
deriving DecidableEq, Repr

def bumpSummary : List SummaryEntry → String × String → String → Ym → String →
    LineItemImg → List SummaryEntry
  | [], k, b, d, req, item => [⟨k.1, b, k.2, item.subtotal, d, addRequestor [] req, [item]⟩]
  | e :: rest, k, b, d, req, item =>
    if e.serial = k.1 && e.status = k.2 then
      { e with
        total := e.total + item.subtotal
        createdAt := if ymLt d e.createdAt then d else e.createdAt
        requestors := addRequestor e.requestors req
        items := e.items ++ [item] } :: rest
    else e :: bumpSummary rest k b d req item

/-- One loop iteration of the `processSheet` helper of the by-status
orders summary. -/
def summaryStep (cmap : List (String × Cell)) (statusKey : String) (now : Ym)
    (acc : List SummaryEntry) (row : Row) : List SummaryEntry :=
  match decodeDateCell (cellAt row 0) with
  | none => acc
  | some d =>
    if d = now then
      let branchName := jsTrim (cellStr (cellOr (cellAt row 1)))
      if branchName = "" then acc
      else
        let serial := serialAt row
        if serial = "" then acc
        else
          bumpSummary acc (serial, statusKey) branchName d
            (jsTrim (cellStr (cellOr (cellAt row 2)))) (lineItemImgOf cmap row)
    else acc

/-- `processSheet` of the by-status orders summary. -/
def ordersSummaryProcessSheet (cmap : List (String × Cell)) (rows : Sheet)
    (statusKey : String) (now : Ym) (acc : List SummaryEntry) : List SummaryEntry :=
  (rows.drop 1).foldl (summaryStep cmap statusKey now) acc

/-! ## `GET /api/exportOrdersExcel` grouping -/

structure ExportEntry where
  serial : String
  status : String
  branchName : String
  createdAt : Ym
  requestors : List String
  items : List LineItem
deriving DecidableEq, Repr

def bumpExport : List ExportEntry → String → String → String → Ym → String →
    LineItem → List ExportEntry
  | [], serial, statusKey, b, d, req, item =>
    [⟨serial, statusKey, b, d, addRequestor [] req, [item]⟩]
  | e :: rest, serial, statusKey, b, d, req, item =>
    if e.serial = serial then
      { e with
        status := statusKey
        createdAt := if ymLt d e.createdAt then d else e.createdAt
        requestors := addRequestor e.requestors req
        items := e.items ++ [item] } :: rest
    else e :: bumpExport rest serial statusKey b d req item

/-- One loop iteration of the export `processSheet` (keyed by serial
only, restricted to the selected serials). -/
def exportStep (selected : List String) (statusKey : String) (now : Ym)
    (acc : List ExportEntry) (row : Row) : List ExportEntry :=
  match decodeDateCell (cellAt row 0) with
  | none => acc
  | some d =>
    if d = now then
      let branchName := jsTrim (cellStr (cellOr (cellAt row 1)))
      if branchName = "" then acc
      else
        let serial := serialAt row
        if serial = "" ∨ serial ∉ selected then acc
        else
          bumpExport acc serial statusKey branchName d
            (jsTrim (cellStr (cellOr (cellAt row 2)))) (lineItemOf row)
    else acc

/-- `processSheet` of the Excel export. -/
def exportProcessSheet (selected : List String) (rows : Sheet)
    (statusKey : String) (now : Ym) (acc : List ExportEntry) : List ExportEntry :=
  (rows.drop 1).foldl (exportStep selected statusKey now) acc

/-! ## `resolveBudgetSheetIdFromF2ByUsername` -/

/-- Row scan of one tab for the legacy budget-sheet-id resolver (username
only; a blank `F2` of the matched tab throws). -/
def resolveScanRows (t : CredTab) (username : String) :
    List Row → Except String (Option String)
  | [] => .ok none
  | row :: rest =>
    let u := jsTrim (cellStr (cellOr (cellAt row 0)))
    if u = "" then resolveScanRows t username rest
    else if u = username then
      if tabSheetId t = "" then .error ("BudgetSheetId missing in " ++ t.title ++ "!F2")
      else .ok (some (tabSheetId t))
    else resolveScanRows t username rest

/-- Tab scan of the resolver; an exhausted scan throws `User not found`. -/
def resolveGo (username : String) : List CredTab → Except String String
  | [] => .error "User not found in any client tab"
  | t :: rest =>
    match resolveScanRows t username t.rows with
    | .error e => .error e
    | .ok (some v) => .ok v
    | .ok none => resolveGo username rest

/-- Model of `resolveBudgetSheetIdFromF2ByUsername`. -/
def resolveBudgetSheetIdFromF2ByUsername (tabs : List CredTab) (username : String) :
    Except String String :=
  resolveGo username (clientTabs tabs)

/-! ## `GET /api/clientBranches` and `GET /api/branchesForL2` -/

/-- The deduplicated list of trimmed, non-blank branch names read from a
client tab's column `C2:C` (`Set` keeps insertion order). -/
def branchSetOf (rows : List Row) : List String :=
  rows.foldl
    (fun acc r =>
      let b := jsTrim (cellStr (cellOr (cellAt r 2)))
      if b = "" then acc else if b ∈ acc then acc else acc ++ [b])
    []

/-- The credential rows of the tab a user lookup resolved (`clientTab`). -/
def tabRowsOf (tabs : List CredTab) (title : String) : List Row :=
  match tabs.find? (fun t => t.title = title) with
  | some t => t.rows
  | none => []

/-- Model of the client-branches endpoint body (legacy path). -/
def clientBranches (tabs : List CredTab) (username : String) :
    Resp × List String :=
  let u := jsTrim username
  if u = "" then (mkFail 400 "Missing username", [])
  else
    match getUserInfoByUsername tabs u with
    | .error _ => (mkFail 500 "حدث خطأ في تحميل الفروع", [])
    | .ok none => (mkFail 400 "المستخدم غير موجود", [])
    | .ok (some info) => (okResp, branchSetOf (tabRowsOf tabs info.tab))

/-- Model of the branches-for-L2 endpoint body (same computation as the
legacy path; the failure bodies also carry an empty `branches` list). -/
def branchesForL2 (tabs : List CredTab) (username : String) :
    Resp × List String :=
  let u := jsTrim username
  if u = "" then (mkFail 400 "Missing username", [])
  else
    match getUserInfoByUsername tabs u with
    | .error _ => (mkFail 500 "حدث خطأ في تحميل الفروع", [])
    | .ok none => (mkFail 400 "المستخدم غير موجود", [])
    | .ok (some info) => (okResp, branchSetOf (tabRowsOf tabs info.tab))

/-! ## `GET /api/loadOrderDataWithSpending` -/

/-- One catalog product as the load-order-data endpoint reports it. -/
structure Product where
  code : Cell
  name : Cell
  category : Cell
  price : Rat
  imageUrl : Cell
deriving DecidableEq, Repr

/-- The product list read from `Product Catalog` (header row skipped). -/
def productsOf (productRows : Sheet) : List Product :=
  (productRows.drop 1).map
    (fun row =>
      ⟨cellAt row 0, cellAt row 1, cellAt row 2, pF0 (cellAt row 3),
       cellOr (cellAt row 4)⟩)

/-- Model of the load-order-data endpoint body: its only failure is the
caught resolver throw (user not found or blank `F2`); the 200 body is
`\x7b products \x7d` without a `success` flag, modelled as a success
response. -/
def loadOrderDataWithSpending (tabs : List CredTab) (username : String)
    (catalog : Sheet) : Resp × List Product :=
  match resolveBudgetSheetIdFromF2ByUsername tabs username with
  | .error _ => (mkFail 500 "حدث خطأ في تحميل البيانات", [])
  | .ok _ => (okResp, productsOf catalog)

/-! ## `GET /api/previousOrders` -/

/-- `codeToProduct[row[0]] = \x7b name: row[1], imageUrl: row[4] || '' \x7d`
over the catalog rows (most recent binding kept at the head). -/
def codeToProductMap (productRows : Sheet) : List (String × (Cell × Cell)) :=
  (productRows.drop 1).foldl
    (fun acc row => (cellStr (cellAt row 0), (cellAt row 1, cellOr (cellAt row 4))) :: acc)
    []

/-- One previous-order line of the current month for a branch. -/
structure PrevOrder where
  productCode : Cell
  productName : Cell
  imageUrl : Cell
  quantity : Int
  rowIndex : Nat
deriving DecidableEq, Repr

/-- `codeToProduct[productCode]?.name || productCode`. -/
def prevName (m : List (String × (Cell × Cell))) (code : Cell) : Cell :=
  match m.find? (fun e => e.1 == cellStr code) with
  | some e => if cellFalsy e.2.1 then code else e.2.1
  | none => code

/-- `codeToProduct[productCode]?.imageUrl || ''`. -/
def prevImg (m : List (String × (Cell × Cell))) (code : Cell) : Cell :=
  match m.find? (fun e => e.1 == cellStr code) with
  | some e => cellOr e.2.2
  | none => Cell.s ""

/-- `ordersMap[productCode] = entry`: replacing an existing key keeps its
insertion position, a new key is appended. -/
def upsertPrev : List (String × PrevOrder) → String → PrevOrder →
    List (String × PrevOrder)
  | [], k, v => [(k, v)]
  | e :: rest, k, v => if e.1 = k then (k, v) :: rest else e :: upsertPrev rest k v

/-- One loop iteration of the previous-orders scan (raw strict branch
comparison `row[1] !== branchName`). -/
def prevStep (m : List (String × (Cell × Cell))) (branchName : String) (now : Ym)
    (rows : Sheet) (acc : List (String × PrevOrder)) (i : Nat) :
    List (String × PrevOrder) :=
  let row := rows.getD i []
  if rowMonthOk now row then
    if cellAt row 1 == Cell.s branchName then
      upsertPrev acc (cellStr (cellAt row 3))
        ⟨cellAt row 3, prevName m (cellAt row 3), prevImg m (cellAt row 3),
         pIntD (cellAt row 8), i⟩
    else acc
  else acc

/-- The previous-orders map built from `Final Orders`. -/
def prevOrdersCore (m : List (String × (Cell × Cell))) (rows : Sheet)
    (branchName : String) (now : Ym) : List PrevOrder :=
  (((List.range rows.length).drop 1).foldl (prevStep m branchName now rows) []).map
    (fun e => e.2)

/-- Model of the previous-orders endpoint body: its only failure is the
caught resolver throw; the 200 body is `\x7b orders \x7d` without a
`success` flag, modelled as a success response. -/
def previousOrders (tabs : List CredTab) (username branchName : String)
    (catalog : Sheet) (st : Store) (now : Ym) : Resp × List PrevOrder :=
  match resolveBudgetSheetIdFromF2ByUsername tabs username with
  | .error _ => (mkFail 500 "حدث خطأ أثناء استخراج الطلبيات السابقة", [])
  | .ok _ =>
    (okResp, prevOrdersCore (codeToProductMap catalog) st.finalOrders branchName now)

/-! ## `GET /api/approvalDetails` -/

/-- Model of the approval-details endpoint body (branch detail of the
`Waiting for Approval` sheet, current month). -/
def approvalDetails (tabs : List CredTab) (username branchName : String)
    (catalog : Sheet) (st : Store) (now : Ym) : Resp × List LineItemImg :=
  let u := jsTrim username
  let b := jsTrim branchName
  if u = "" ∨ b = "" then (mkFail 400 "البيانات غير مكتملة", [])
  else
    match getUserInfoByUsername tabs u with
    | .error _ => (mkFail 500 "حدث خطأ أثناء تحميل تفاصيل الطلب", [])
    | .ok none => (mkFail 400 "المستخدم غير موجود", [])
    | .ok (some info) =>
      if jsUpper info.level ≠ "L2" then
        (mkFail 403 "غير مسموح بالموافقة على الطلبات", [])
      else
        (okResp, (orderDetailsCore (catImageMap catalog) st.waiting now "" b).1)

/-! ## `POST /api/approveBranchOrder` -/

/-- The row indices collected by the branch-approve scan: data rows in
the current month whose trimmed branch column matches. -/
def branchScan (rows : Sheet) (branchName : String) (now : Ym) : List Nat :=
  ((List.range rows.length).drop 1).filter
    (fun i => rowMonthOk now (rows.getD i []) &&
      jsTrim (cellStr (cellOr (cellAt (rows.getD i []) 1))) == branchName)

/-- Model of the approve-branch-order endpoint body (move-and-clear of a
whole branch, target `Final Orders`). -/
def approveBranchOrder (tabs : List CredTab) (username branchName : String)
    (st : Store) (now : Ym) : Resp × Store :=
  if username = "" ∨ branchName = "" then (mkFail 400 "البيانات غير مكتملة", st)
  else
    match getUserInfoByUsername tabs username with
    | .error _ => (mkFail 500 "حدث خطأ أثناء تأكيد الطلب", st)
    | .ok none => (mkFail 400 "المستخدم غير موجود", st)
    | .ok (some info) =>
      if jsUpper info.level ≠ "L2" then
        (mkFail 403 "غير مسموح بالموافقة على الطلبات", st)
      else
        let idxs := branchScan st.waiting branchName now
        if idxs = [] then
          (mkFail 400 "لا يوجد طلبات معلقة لهذا الفرع في هذا الشهر", st)
        else
          let appendValues := idxs.map (fun i => pad11 (st.waiting.getD i []))
          (okResp,
           { st with
             finalOrders := appendRowsAtoK st.finalOrders appendValues
             waiting := clearRows st.waiting idxs })

/-! ## `GET /api/pendingOrders` -/

/-- Model of the pending-orders endpoint body. -/
def pendingOrders (tabs : List CredTab) (username : String)
    (st : Store) (now : Ym) : Resp × List PendingEntry :=
  let u := jsTrim username
  if u = "" then (mkFail 400 "Missing username", [])
  else
    match getUserInfoByUsername tabs u with
    | .error _ => (mkFail 500 "حدث خطأ في تحميل الطلبات المعلقة", [])
    | .ok none => (mkFail 400 "المستخدم غير موجود", [])
    | .ok (some info) =>
      if jsUpper info.level ≠ "L2" then
        (mkFail 403 "غير مسموح بالموافقة على الطلبات", [])
      else (okResp, pendingOrdersCore st.waiting now)

/-! ## `POST /api/updatePreviousOrders` -/

/-- One edit item of an update-previous-orders request (`rowIndex` models
the optional numeric `o.rowIndex` field). -/
structure UpdPrevItem where
  rowIndex : Option Int
  productCode : String
  quantity : Cell
deriving DecidableEq, Repr

/-- One step of the `latestIndex[code] = i` loop over `Final Orders`
(raw strict branch comparison, no falsy-code skip; the most recent
binding is kept at the head). -/
def latestIdxStep (rows : Sheet) (branchName : String) (now : Ym)
    (acc : List (String × Nat)) (i : Nat) : List (String × Nat) :=
  let row := rows.getD i []
  if rowMonthOk now row then
    if cellAt row 1 == Cell.s branchName then (cellStr (cellAt row 3), i) :: acc
    else acc
  else acc

/-- The product-code → latest-row-index map of the previous-orders edit. -/
def latestIndex (rows : Sheet) (branchName : String) (now : Ym) :
    List (String × Nat) :=
  ((List.range rows.length).drop 1).foldl (latestIdxStep rows branchName now) []

/-- One request item's contribution to the previous-orders update batch:
an in-range numeric `rowIndex` targets that row directly, otherwise the
latest-index lookup decides; items resolving to no row are skipped. -/
def updPrevBatchStep (rows : Sheet) (branchName : String) (now : Ym)
    (acc : List (Nat × Nat × Rat)) (o : UpdPrevItem) : List (Nat × Nat × Rat) :=
  let lookup := ((latestIndex rows branchName now).find?
    (fun e => e.1 == o.productCode)).map (fun e => e.2)
  let idx : Option Nat :=
    match o.rowIndex with
    | some k => if 0 < k ∧ k < (rows.length : Int) then some k.toNat else lookup
    | none => lookup
  match idx with
  | none => acc
  | some i =>
    let unitPrice := pF0 (cellAt (rows.getD i []) 5)
    let qty : Nat := (max 0 ((jsParseIntCell o.quantity).getD 0)).toNat
    acc ++ [(i, qty, unitPrice * (qty : Rat))]

/-- The batch of `(rowIndex, quantity, subtotal)` writes assembled from a
previous-orders update request. -/
def updPrevBatch (rows : Sheet) (branchName : String) (now : Ym)
    (items : List UpdPrevItem) : List (Nat × Nat × Rat) :=
  items.foldl (updPrevBatchStep rows branchName now) []

/-- Model of the update-previous-orders endpoint body (edits columns I
and G of `Final Orders`). -/
def updatePreviousOrders (tabs : List CredTab) (username branchName : String)
    (items : List UpdPrevItem) (st : Store) (now : Ym) : Resp × Store :=
  if branchName = "" ∨ items = [] then (mkFail 400 "بيانات الطلبات غير مكتملة", st)
  else
    match resolveBudgetSheetIdFromF2ByUsername tabs username with
    | .error _ => (mkFail 500 "حدث خطأ أثناء تحديث الطلبيات", st)
    | .ok _ =>
      let batch := updPrevBatch st.finalOrders branchName now items
      if batch = [] then (mkFail 400 "لم يتم العثور على بيانات لتحديثها", st)
      else (okResp, { st with finalOrders := applyBatch st.finalOrders batch })

/-! ## `GET /api/ordersSummaryForL2` and `GET /api/orderDetailsForL2` -/

/-- `codeToImage` of the by-status summary: unlike the details variants,
rows with a falsy product code are skipped. -/
def catImageMapNZ (productRows : Sheet) : List (String × Cell) :=
  (productRows.drop 1).foldl
    (fun acc row =>
      if cellFalsy (cellAt row 0) then acc
      else (cellStr (cellAt row 0), cellOr (cellAt row 4)) :: acc)
    []

/-- Model of the by-status orders-summary endpoint body (shared by the
`/api/ordersSummaryForL2`, `/api/ordersSummary` and
`/api/ordersSummaryByStatus` routes). -/
def ordersSummaryForL2 (tabs : List CredTab) (username : String)
    (catalog : Sheet) (st : Store) (now : Ym) : Resp × List SummaryEntry :=
  let u := jsTrim username
  if u = "" then (mkFail 400 "Missing username", [])
  else
    match getUserInfoByUsername tabs u with
    | .error _ => (mkFail 500 "حدث خطأ في تحميل قائمة الطلبات", [])
    | .ok none => (mkFail 400 "المستخدم غير موجود", [])
    | .ok (some info) =>
      if jsUpper info.level ≠ "L2" then
        (mkFail 403 "غير مسموح بعرض قائمة الطلبات", [])
      else
        let cmap := catImageMapNZ catalog
        (okResp,
         ordersSummaryProcessSheet cmap st.cancelled "Cancelled" now
           (ordersSummaryProcessSheet cmap st.finalOrders "Approved" now
             (ordersSummaryProcessSheet cmap st.waiting "Waiting" now [])))

/-- Model of the order-details-by-status endpoint body (shared by the
`/api/orderDetailsForL2` and `/api/orderDetailsByStatus` routes). -/
def orderDetailsForL2 (tabs : List CredTab)
    (username branchNameQuery statusRaw serialQuery : String)
    (catalog : Sheet) (st : Store) (now : Ym) :
    Resp × (List LineItemImg × String) :=
  let u := jsTrim username
  let b := jsTrim branchNameQuery
  let sr := jsLower (jsTrim statusRaw)
  let sq := jsTrim serialQuery
  if u = "" ∨ (b = "" ∧ sq = "") then (mkFail 400 "البيانات غير مكتملة", ([], b))
  else
    let status := if sr = "approved" then "approved"
      else if sr = "cancelled" then "cancelled" else "waiting"
    let sheetRows := if status = "waiting" then st.waiting
      else if status = "approved" then st.finalOrders else st.cancelled
    match getUserInfoByUsername tabs u with
    | .error _ => (mkFail 500 "حدث خطأ أثناء تحميل تفاصيل الطلب", ([], b))
    | .ok none => (mkFail 400 "المستخدم غير موجود", ([], b))
    | .ok (some info) =>
      if jsUpper info.level ≠ "L2" then
        (mkFail 403 "غير مسموح بعرض تفاصيل الطلب", ([], b))
      else (okResp, orderDetailsCore (catImageMap catalog) sheetRows now sq b)

/-! ## `GET /api/exportOrdersExcel` and `GET /api/exportOrderExcel` -/

/-- Model of JS `split(',')`: cut at each comma. -/
def splitCommaGo : List Char → List Char → List (List Char)
  | acc, [] => [acc.reverse]
  | acc, ',' :: rest => acc.reverse :: splitCommaGo [] rest
  | acc, c :: rest => splitCommaGo (c :: acc) rest

/-- JS `serialsParam.split(',')` as strings. -/
def jsSplitComma (s : String) : List String :=
  (splitCommaGo [] s.data).map (fun l => ⟨l⟩)

/-- Model of the multi-order Excel-export endpoint body: the 200 response
sends the workbook file, modelled as a success response. -/
def exportOrdersExcel (tabs : List CredTab) (username serialsParam : String)
    (st : Store) (now : Ym) : Resp × List ExportEntry :=
  let u := jsTrim username
  let serials := ((jsSplitComma (jsTrim serialsParam)).map jsTrim).filter
    (fun s => s ≠ "")
  if u = "" ∨ serials = [] then (mkFail 400 "البيانات غير مكتملة", [])
  else
    match getUserInfoByUsername tabs u with
    | .error _ => (mkFail 500 "حدث خطأ أثناء تحميل ملف الإكسل", [])
    | .ok none => (mkFail 400 "المستخدم غير موجود", [])
    | .ok (some info) =>
      if jsUpper info.level ≠ "L2" then
        (mkFail 403 "غير مسموح بتحميل ملف إكسل للطلبات", [])
      else
        let entries := exportProcessSheet serials st.cancelled "Cancelled" now
          (exportProcessSheet serials st.finalOrders "Approved" now
            (exportProcessSheet serials st.waiting "Waiting" now []))
        if entries = [] then
          (mkFail 400 "لم يتم العثور على بيانات للطلبات المحددة", [])
        else (okResp, entries)

/-- `orders.find(...)` grouping of the single-order export: one entry per
`(serial, status, branch)`, appended in encounter order. -/
def bumpExport1 : List ExportEntry → String → String → String → Ym → String →
    LineItem → List ExportEntry
  | [], serial, statusKey, b, d, req, item =>
    [⟨serial, statusKey, b, d, addRequestor [] req, [item]⟩]
  | e :: rest, serial, statusKey, b, d, req, item =>
    if e.serial = serial && e.status = statusKey && e.branchName = b then
      { e with
        createdAt := if ymLt d e.createdAt then d else e.createdAt
        requestors := addRequestor e.requestors req
        items := e.items ++ [item] } :: rest
    else e :: bumpExport1 rest serial statusKey b d req item

/-- One loop iteration of the single-order export `processSheet`. -/
def export1Step (serialQuery statusKey : String) (now : Ym)
    (acc : List ExportEntry) (row : Row) : List ExportEntry :=
  match decodeDateCell (cellAt row 0) with
  | none => acc
  | some d =>
    if d = now then
      let branchName := jsTrim (cellStr (cellOr (cellAt row 1)))
      if branchName = "" then acc
      else
        let serial := serialAt row
        if serial = "" ∨ serial ≠ serialQuery then acc
        else
          bumpExport1 acc serial statusKey branchName d
            (jsTrim (cellStr (cellOr (cellAt row 2)))) (lineItemOf row)
    else acc

/-- `processSheet` of the single-order export. -/
def exportOrderProcessSheet (serialQuery : String) (rows : Sheet)
    (statusKey : String) (now : Ym) (acc : List ExportEntry) : List ExportEntry :=
  (rows.drop 1).foldl (export1Step serialQuery statusKey now) acc

/-- Model of the single-order Excel-export endpoint body. -/
def exportOrderExcel (tabs : List CredTab) (username serialQuery : String)
    (st : Store) (now : Ym) : Resp × List ExportEntry :=
  let u := jsTrim username
  let sq := jsTrim serialQuery
  if u = "" ∨ sq = "" then (mkFail 400 "البيانات غير مكتملة", [])
  else
    match getUserInfoByUsername tabs u with
    | .error _ => (mkFail 500 "حدث خطأ أثناء تحميل ملف الإكسل", [])
    | .ok none => (mkFail 400 "المستخدم غير موجود", [])
    | .ok (some info) =>
      if jsUpper info.level ≠ "L2" then
        (mkFail 403 "غير مسموح بتحميل ملف إكسل للطلبات", [])
      else
        let orders := exportOrderProcessSheet sq st.cancelled "Cancelled" now
          (exportOrderProcessSheet sq st.finalOrders "Approved" now
            (exportOrderProcessSheet sq st.waiting "Waiting" now []))
        if orders = [] then
          (mkFail 400 "لم يتم العثور على بيانات لهذا الطلب", [])
        else (okResp, orders)

/-! ## Statement-level predicates -/

/-- `rows` with every data row not dated in the current month removed
(the header row is kept).  Used to state that out-of-month rows are
invisible to a scan. -/
def keepMonthRows (now : Ym) (rows : Sheet) : Sheet :=
  match rows with
  | [] => []
  | h :: t => h :: t.filter (rowMonthOk now)

/-- Row `i` of the waiting sheet matches the update scan for
`(serial, code)`: current month, matching serial column, non-falsy
product-code cell rendering to `code`. -/
def updMatches (rows : Sheet) (q : String) (now : Ym) (code : String) (i : Nat) : Prop :=
  rowMonthOk now (rows.getD i []) = true ∧
  serialAt (rows.getD i []) = q ∧
  cellFalsy (cellAt (rows.getD i []) 3) = false ∧
  cellStr (cellAt (rows.getD i []) 3) = code

/-- A credential row that the login scan skips without looking at it:
both the username and password cells are blank. -/
def loginRowBlank (row : Row) : Prop :=
  jsTrim (cellStr (cellOr (cellAt row 0))) = "" ∧ cellStr (cellOr (cellAt row 1)) = ""

/-- A credential row matching the given username and password. -/
def loginRowMatch (row : Row) (username password : String) : Prop :=
  jsTrim (cellStr (cellOr (cellAt row 0))) = username ∧
  cellStr (cellOr (cellAt row 1)) = password

/-- The index entry a scanned row contributes (if any). -/
def updEntry (rows : Sheet) (q : String) (now : Ym) (i : Nat) : Option (String × Nat) :=
  if updRowHit rows q now i then some (cellStr (cellAt (rows.getD i []) 3), i) else none

/-! ## Concrete fixtures (used by the witness theorems) -/

def fixTabs : List CredTab :=
  [⟨"Config", [], Cell.s ""⟩,
   ⟨"ClientA",
    [[Cell.s "amr", Cell.s "pw", Cell.s "Maadi", Cell.s "", Cell.s "L1"],
     [Cell.s "mona", Cell.s "pw2", Cell.s "HQ", Cell.s "", Cell.s "L2"]],
    Cell.s "SHEET1"⟩]

def fixNow : Ym := ⟨2025, 10⟩

def fixDate : String := "2025-10-05 10:00:00"

def fixHeader : Row :=
  [Cell.s "Date", Cell.s "Branch", Cell.s "User", Cell.s "Code", Cell.s "Name",
   Cell.s "Price", Cell.s "Subtotal", Cell.s "Category", Cell.s "Qty", Cell.s "",
   Cell.s "Serial"]

def fixRow1 : Row :=
  [Cell.s fixDate, Cell.s "Maadi", Cell.s "amr", Cell.s "P1", Cell.s "Juice",
   Cell.n 10, Cell.n 30, Cell.s "Drinks", Cell.n 3, Cell.s "", Cell.s "AA1"]

def fixRow2 : Row :=
  [Cell.s fixDate, Cell.s "Maadi", Cell.s "amr", Cell.s "P2", Cell.s "Water",
   Cell.n 5, Cell.n 5, Cell.s "Drinks", Cell.n 1, Cell.s "", Cell.s "AA2"]

def fixRowDup : Row :=
  [Cell.s fixDate, Cell.s "Maadi", Cell.s "amr", Cell.s "P1", Cell.s "Juice",
   Cell.n 10, Cell.n 40, Cell.s "Drinks", Cell.n 4, Cell.s "", Cell.s "AA1"]

def fixStore : Store := ⟨[fixHeader, fixRow1, fixRow2], [fixHeader], [fixHeader], none⟩

def fixStoreDup : Store := ⟨[fixHeader, fixRow1, fixRowDup], [fixHeader], [fixHeader], none⟩

def fixStoreEmpty : Store := ⟨[fixHeader], [fixHeader], [fixHeader], none⟩

def fixItem : OrderItem := ⟨"P1", "Juice", some 10, some 3, none, some "Drinks"⟩

/-! # Supporting lemmas -/

/-! ## Decimal digits -/

theorem natDigitsAux_irrel :
    ∀ f1 f2 n : Nat, n < f1 → n < f2 → natDigitsAux n f1 = natDigitsAux n f2 := by
  intro f1
  induction f1 with
  | zero => intro f2 n h1 _; omega
  | succ f ih =>
    intro f2 n h1 h2
    cases f2 with
    | zero => omega
    | succ g =>
      simp only [natDigitsAux]
      by_cases h : n < 10
      · simp [h]
      · have hd : n / 10 < n := Nat.div_lt_self (by omega) (by omega)
        simp only [if_neg h]
        rw [ih g (n / 10) (by omega) (by omega)]

theorem natDigits_eq (n : Nat) :
    natDigits n =
      if n < 10 then [toDigitChar n]
      else natDigits (n / 10) ++ [toDigitChar (n % 10)] := by
  show natDigitsAux n (n + 1) = _
  simp only [natDigitsAux]
  by_cases h : n < 10
  · simp [h, natDigits]
  · have hd : n / 10 < n := Nat.div_lt_self (by omega) (by omega)
    simp only [if_neg h]
    unfold natDigits
    rw [natDigitsAux_irrel n (n / 10 + 1) (n / 10) (by omega) (by omega)]

theorem isDigitChar_toDigitChar {n : Nat} (h : n < 10) :
    isDigitChar (toDigitChar n) = true := by
  interval_cases n <;> decide

theorem toNat_toDigitChar {n : Nat} (h : n < 10) : (toDigitChar n).toNat = 48 + n := by
  interval_cases n <;> decide

theorem digit_char_cases {c : Char} (h : isDigitChar c = true) :
    c = '0' ∨ c = '1' ∨ c = '2' ∨ c = '3' ∨ c = '4' ∨
    c = '5' ∨ c = '6' ∨ c = '7' ∨ c = '8' ∨ c = '9' := by
  simpa [isDigitChar, digitChars] using h

theorem digit_not_ws {c : Char} (h : isDigitChar c = true) : isWsChar c = false := by
  rcases digit_char_cases h with rfl | rfl | rfl | rfl | rfl | rfl | rfl | rfl | rfl | rfl <;>
    decide

theorem digit_upChar {c : Char} (h : isDigitChar c = true) : jsUpChar c = c := by
  rcases digit_char_cases h with rfl | rfl | rfl | rfl | rfl | rfl | rfl | rfl | rfl | rfl <;>
    decide

theorem digit_ne_dash {c : Char} (h : isDigitChar c = true) : c ≠ '-' := by
  rcases digit_char_cases h with rfl | rfl | rfl | rfl | rfl | rfl | rfl | rfl | rfl | rfl <;>
    decide

theorem digit_ne_plus {c : Char} (h : isDigitChar c = true) : c ≠ '+' := by
  rcases digit_char_cases h with rfl | rfl | rfl | rfl | rfl | rfl | rfl | rfl | rfl | rfl <;>
    decide

theorem natDigits_ne_nil (n : Nat) : natDigits n ≠ [] := by
  rw [natDigits_eq]
  by_cases h : n < 10 <;> simp [h]

theorem mem_natDigits_digit : ∀ n : Nat, ∀ c ∈ natDigits n, isDigitChar c = true := by
  intro n
  induction n using Nat.strong_induction_on with
  | _ n ih =>
    intro c hc
    rw [natDigits_eq] at hc
    by_cases h : n < 10
    · rw [if_pos h] at hc
      simp only [List.mem_singleton] at hc
      subst hc
      exact isDigitChar_toDigitChar h
    · rw [if_neg h, List.mem_append] at hc
      rcases hc with hc | hc
      · exact ih (n / 10) (Nat.div_lt_self (by omega) (by omega)) c hc
      · simp only [List.mem_singleton] at hc
        subst hc
        exact isDigitChar_toDigitChar (Nat.mod_lt _ (by omega))

theorem digitsVal_append_one (l : List Char) (c : Char) :
    digitsVal (l ++ [c]) = digitsVal l * 10 + (c.toNat - 48) := by
  simp [digitsVal, List.foldl_append]

theorem digitsVal_natDigits : ∀ n : Nat, digitsVal (natDigits n) = n := by
  intro n
  induction n using Nat.strong_induction_on with
  | _ n ih =>
    rw [natDigits_eq]
    by_cases h : n < 10
    · rw [if_pos h]
      have := toNat_toDigitChar h
      simp [digitsVal, this]
    · rw [if_neg h, digitsVal_append_one,
        ih (n / 10) (Nat.div_lt_self (by omega) (by omega)),
        toNat_toDigitChar (Nat.mod_lt _ (by omega))]
      omega

/-! ## Generic list helpers -/

theorem takeWhile_all {α} (p : α → Bool) :
    ∀ l : List α, (∀ c ∈ l, p c = true) → l.takeWhile p = l := by
  intro l h
  induction l with
  | nil => rfl
  | cons a t ih =>
    rw [List.takeWhile_cons, h a (by simp)]
    simp only [ite_true]
    rw [ih (fun c hc => h c (by simp [hc]))]

theorem dropWhile_none {α} (p : α → Bool) :
    ∀ l : List α, (∀ c ∈ l, p c = false) → l.dropWhile p = l := by
  intro l h
  cases l with
  | nil => rfl
  | cons a t => rw [List.dropWhile_cons, h a (by simp)]; simp

theorem trimChars_no_ws (l : List Char) (h : ∀ c ∈ l, isWsChar c = false) :
    trimChars l = l := by
  unfold trimChars
  rw [dropWhile_none _ l h,
    dropWhile_none _ l.reverse (fun c hc => h c (List.mem_reverse.mp hc)),
    List.reverse_reverse]

theorem map_id_of_eq {α} (f : α → α) :
    ∀ l : List α, (∀ c ∈ l, f c = c) → l.map f = l := by
  intro l h
  induction l with
  | nil => rfl
  | cons a t ih =>
    rw [List.map_cons, h a (by simp), ih (fun c hc => h c (by simp [hc]))]

/-! ## `jsParseIntChars` on a pure digit string -/

theorem jsParseIntChars_digits (l : List Char) (hne : l ≠ [])
    (hd : ∀ c ∈ l, isDigitChar c = true) :
    jsParseIntChars l = some (digitsVal l : Int) := by
  have h1 : l.dropWhile isWsChar = l :=
    dropWhile_none _ l (fun c hc => digit_not_ws (hd c hc))
  cases l with
  | nil => exact absurd rfl hne
  | cons c t =>
    have hc : isDigitChar c = true := hd c (by simp)
    simp only [jsParseIntChars, h1, if_neg (digit_ne_dash hc), if_neg (digit_ne_plus hc)]
    rw [takeWhile_all _ _ hd]
    simp

/-! # Claim C1: serial generator -/

/-- Claim C1, counterexample: the claim asserts that a counter cell with a
numeric suffix but without the `"AA"` prefix still has its suffix parsed
(so a counter `"5"` would produce `"AA6"`); in the code the suffix is only
parsed when the content starts with the prefix, so a counter `"5"` yields
`"AA1"`, not `"AA6"`. -/
theorem claim_C1_cex :
    getNextOrderSerial (some (Cell.s "5")) = "AA1" ∧ ("AA1" : String) ≠ "AA6" :=
  ⟨by decide, by decide⟩

/-- Claim C1, amended: the serial generator treats a failed read, a blank
cell, and any content lacking the (case-insensitive) `"AA"` prefix — even
a bare number — as 0; for a counter cell containing `"AA"` followed by a
non-negative integer `n` it writes back and returns `"AA"` followed by
`n + 1`. -/
theorem claim_C1_thm :
    (∀ n : Nat,
      getNextOrderSerial (some (Cell.s ⟨'A' :: 'A' :: natDigits n⟩)) =
        (⟨'A' :: 'A' :: natDigits (n + 1)⟩ : String))
    ∧ getNextOrderSerial none = "AA1"
    ∧ getNextOrderSerial (some (Cell.s "")) = "AA1"
    ∧ getNextOrderSerial (some (Cell.s "5")) = "AA1" := by
  refine ⟨?_, by decide, by decide, by decide⟩
  intro n
  have hd : ∀ c ∈ natDigits n, isDigitChar c = true := mem_natDigits_digit n
  have hnw : ∀ c ∈ ('A' :: 'A' :: natDigits n), isWsChar c = false := by
    intro c hc
    rcases List.mem_cons.mp hc with rfl | hc
    · decide
    rcases List.mem_cons.mp hc with rfl | hc
    · decide
    exact digit_not_ws (hd c hc)
  have hdw : ∀ c ∈ natDigits n, isWsChar c = false :=
    fun c hc => digit_not_ws (hd c hc)
  simp only [getNextOrderSerial, cellStr]
  rw [trimChars_no_ws _ hnw, List.map_cons, List.map_cons,
    show jsUpChar 'A' = 'A' from by decide,
    map_id_of_eq _ _ (fun c hc => digit_upChar (hd c hc)),
    show startsAA ('A' :: 'A' :: natDigits n) = true from by simp [startsAA],
    if_pos rfl,
    show List.drop 2 ('A' :: 'A' :: natDigits n) = natDigits n from rfl,
    trimChars_no_ws _ hdw,
    jsParseIntChars_digits _ (natDigits_ne_nil n) hd]
  simp [digitsVal_natDigits]

/-! ## `List.set` and `getD` -/

theorem getD_set_ne {α} :
    ∀ (l : List α) (x : α) (i j : Nat) (d : α), i ≠ j →
      (l.set i x).getD j d = l.getD j d := by
  intro l
  induction l with
  | nil => intro x i j d _; rfl
  | cons a t ih =>
    intro x i j d hij
    cases i with
    | zero =>
      cases j with
      | zero => exact absurd rfl hij
      | succ m => simp [List.getD_cons_succ]
    | succ k =>
      cases j with
      | zero => simp [List.getD_cons_zero]
      | succ m => simpa [List.getD_cons_succ] using ih x k m d (by omega)

theorem getD_set_self {α} :
    ∀ (l : List α) (x : α) (i : Nat) (d : α), i < l.length →
      (l.set i x).getD i d = x := by
  intro l
  induction l with
  | nil => intro x i d h; simp at h
  | cons a t ih =>
    intro x i d h
    cases i with
    | zero => rfl
    | succ k => simpa [List.getD_cons_succ] using ih x k d (by simpa using h)

/-! ## `clearRows` -/

theorem clearRows_length :
    ∀ (idxs : List Nat) (s : Sheet), (clearRows s idxs).length = s.length := by
  intro idxs
  induction idxs with
  | nil => intro s; rfl
  | cons i t ih =>
    intro s
    show (clearRows (s.set i (writeRowAtoK (s.getD i []) blank11)) t).length = _
    rw [ih, List.length_set]

theorem clearRows_getD_not_mem :
    ∀ (idxs : List Nat) (s : Sheet) (j : Nat), j ∉ idxs →
      (clearRows s idxs).getD j [] = s.getD j [] := by
  intro idxs
  induction idxs with
  | nil => intro s j _; rfl
  | cons i t ih =>
    intro s j hj
    show (clearRows (s.set i (writeRowAtoK (s.getD i []) blank11)) t).getD j [] = _
    rw [ih _ j (fun h => hj (List.mem_cons_of_mem _ h)),
      getD_set_ne _ _ _ _ _ (fun h => hj (by rw [← h]; exact List.mem_cons_self i t))]

theorem clearRows_getD_mem :
    ∀ (idxs : List Nat) (s : Sheet) (i : Nat), idxs.Nodup → i ∈ idxs → i < s.length →
      (clearRows s idxs).getD i [] = writeRowAtoK (s.getD i []) blank11 := by
  intro idxs
  induction idxs with
  | nil => intro s i _ hi _; simp at hi
  | cons a t ih =>
    intro s i hnd hi hlen
    have hna : a ∉ t := (List.nodup_cons.mp hnd).1
    show (clearRows (s.set a (writeRowAtoK (s.getD a []) blank11)) t).getD i [] = _
    rcases List.mem_cons.mp hi with rfl | hi
    · rw [clearRows_getD_not_mem t _ i hna, getD_set_self _ _ _ _ hlen]
    · have hne : a ≠ i := fun h => hna (h ▸ hi)
      rw [ih _ i (List.nodup_cons.mp hnd).2 hi (by rw [List.length_set]; exact hlen),
        getD_set_ne _ _ _ _ _ hne]

/-! ## `setRowsFrom` and `appendRowsAtoK` -/

theorem writeRowAtoK_nil_eq (v : Row) (h : v.length = 11) : writeRowAtoK [] v = v := by
  unfold writeRowAtoK
  rw [List.drop_nil, List.append_nil, List.take_of_length_le (by omega)]

theorem overwriteRows_nil_eq :
    ∀ vals : List Row, (∀ v ∈ vals, v.length = 11) → overwriteRows [] vals = vals := by
  intro vals
  induction vals with
  | nil => intro _; rfl
  | cons v vs ihv =>
    intro h
    show writeRowAtoK [] v :: overwriteRows [] vs = _
    rw [ihv (fun u hu => h u (List.mem_cons_of_mem _ hu)),
      writeRowAtoK_nil_eq v (h v (List.mem_cons_self _ _))]

theorem setRowsFrom_append :
    ∀ (s : Sheet) (vals : List Row), (∀ v ∈ vals, v.length = 11) →
      setRowsFrom s s.length vals = s ++ vals := by
  intro s
  induction s with
  | nil =>
    intro vals h
    show overwriteRows [] vals = _
    rw [overwriteRows_nil_eq vals h]
    rfl
  | cons r rs ih =>
    intro vals h
    show r :: setRowsFrom rs rs.length vals = _
    rw [ih _ h]
    rfl

theorem pad11_length (r : Row) : (pad11 r).length = 11 := by simp [pad11]

theorem appendRowsAtoK_eq_append (sheet : Sheet) (vals : List Row)
    (hne : vals ≠ []) (htight : lastNonEmptyRowA sheet = sheet.length)
    (h11 : ∀ v ∈ vals, v.length = 11) :
    appendRowsAtoK sheet vals = sheet ++ vals := by
  unfold appendRowsAtoK
  rw [if_neg hne, htight]
  exact setRowsFrom_append sheet vals h11

/-! ## `serialScan` -/

theorem mem_range_drop_one {n i : Nat} : i ∈ (List.range n).drop 1 ↔ 1 ≤ i ∧ i < n := by
  cases n with
  | zero => simp
  | succ m =>
    rw [List.range_succ_eq_map]
    show i ∈ List.map Nat.succ (List.range m) ↔ _
    simp only [List.mem_map, List.mem_range]
    constructor
    · rintro ⟨j, hj, rfl⟩; omega
    · rintro ⟨h1, h2⟩; exact ⟨i - 1, by omega, by omega⟩

theorem mem_serialScan {rows : Sheet} {q : String} {now : Ym} {i : Nat} :
    i ∈ serialScan rows q now ↔
      1 ≤ i ∧ i < rows.length ∧ rowMonthOk now (rows.getD i []) = true ∧
        serialAt (rows.getD i []) = q := by
  unfold serialScan
  rw [List.mem_filter, mem_range_drop_one, Bool.and_eq_true, beq_iff_eq]
  tauto

theorem serialScan_nodup (rows : Sheet) (q : String) (now : Ym) :
    (serialScan rows q now).Nodup := by
  unfold serialScan
  exact (((List.nodup_range _).sublist (List.drop_sublist _ _)).filter _)

theorem rowMonthOk_cleared (now : Ym) (r : Row) :
    rowMonthOk now (writeRowAtoK r blank11) = false := by
  have h0 : cellAt (writeRowAtoK r blank11) 0 = Cell.s "" := by
    simp [writeRowAtoK, blank11, cellAt]
  simp [rowMonthOk, h0, decodeDateCell, cellFalsy]

theorem serialScan_clearRows_self (rows : Sheet) (q : String) (now : Ym) :
    serialScan (clearRows rows (serialScan rows q now)) q now = [] := by
  rw [List.eq_nil_iff_forall_not_mem]
  intro i hi
  obtain ⟨h1, hlen, hmonth, hserial⟩ := mem_serialScan.mp hi
  rw [clearRows_length] at hlen
  by_cases hmem : i ∈ serialScan rows q now
  · rw [clearRows_getD_mem _ _ _ (serialScan_nodup rows q now) hmem hlen,
      rowMonthOk_cleared] at hmonth
    exact absurd hmonth (by simp)
  · rw [clearRows_getD_not_mem _ _ _ hmem] at hmonth hserial
    exact hmem (mem_serialScan.mpr ⟨h1, hlen, hmonth, hserial⟩)

/-! ## Inversion of a successful approve -/

theorem approveOrder_success_inv {tabs : List CredTab} {username oid : String}
    {st : Store} {now : Ym} {r : Resp} {st' : Store}
    (h : approveOrder tabs username oid st now = (r, st'))
    (hr : r.success = true) :
    username ≠ "" ∧ parseOrderIdSerial oid ≠ "" ∧ parseOrderIdStatus oid = "waiting" ∧
    ∃ info, getUserInfoByUsername tabs username = .ok (some info) ∧
      jsUpper info.level = "L2" ∧
      serialScan st.waiting (parseOrderIdSerial oid) now ≠ [] ∧
      r = okResp ∧
      st' = { st with
        finalOrders := appendRowsAtoK st.finalOrders
          ((serialScan st.waiting (parseOrderIdSerial oid) now).map
            (fun i => pad11 (st.waiting.getD i [])))
        waiting := clearRows st.waiting (serialScan st.waiting (parseOrderIdSerial oid) now) } := by
  simp only [approveOrder] at h
  by_cases hc1 : username = "" ∨ parseOrderIdSerial oid = ""
  · rw [if_pos hc1] at h
    injection h with h1 _
    rw [← h1] at hr
    simp [mkFail] at hr
  rw [if_neg hc1] at h
  by_cases hc2 : parseOrderIdStatus oid ≠ "waiting"
  · rw [if_pos hc2] at h
    injection h with h1 _
    rw [← h1] at hr
    simp [mkFail] at hr
  rw [if_neg hc2] at h
  cases heq : getUserInfoByUsername tabs username with
  | error e =>
    simp only [heq] at h
    injection h with h1 _
    rw [← h1] at hr
    simp [mkFail] at hr
  | ok oinfo =>
    cases oinfo with
    | none =>
      simp only [heq] at h
      injection h with h1 _
      rw [← h1] at hr
      simp [mkFail] at hr
    | some info =>
      simp only [heq] at h
      by_cases hl2 : jsUpper info.level ≠ "L2"
      · rw [if_pos hl2] at h
        injection h with h1 _
        rw [← h1] at hr
        simp [mkFail] at hr
      rw [if_neg hl2] at h
      by_cases hscan : serialScan st.waiting (parseOrderIdSerial oid) now = []
      · rw [if_pos hscan] at h
        injection h with h1 _
        rw [← h1] at hr
        simp [mkFail] at hr
      rw [if_neg hscan] at h
      injection h with h1 h2
      exact ⟨(not_or.mp hc1).1, (not_or.mp hc1).2, not_not.mp hc2, info, rfl,
        not_not.mp hl2, hscan, h1.symm, h2.symm⟩

/-- Evaluation of an approve that finds no matching waiting rows. -/
theorem approveOrder_noMatch {tabs : List CredTab} {username oid : String}
    {st : Store} {now : Ym} {info : UserInfo}
    (hu : username ≠ "") (hs : parseOrderIdSerial oid ≠ "")
    (hw : parseOrderIdStatus oid = "waiting")
    (hinfo : getUserInfoByUsername tabs username = .ok (some info))
    (hl2 : jsUpper info.level = "L2")
    (hscan : serialScan st.waiting (parseOrderIdSerial oid) now = []) :
    approveOrder tabs username oid st now =
      (mkFail 400 "لا يوجد طلبات معلقة لهذا الرقم في هذا الشهر", st) := by
  simp only [approveOrder, hinfo]
  rw [if_neg (by simp [hu, hs]), if_neg (by simp [hw]), if_neg (by simp [hl2]),
    if_pos hscan]

/-! # Claim C3: approve moves matching rows and clears them in place -/

/-- Claim C3: on a successful approve, the matching current-month waiting
rows are appended cell-for-cell (11 columns, missing cells as empty
strings) to `Final Orders`; each source row is overwritten in place with
11 empty strings; every other waiting row is unchanged; no row is
physically deleted (the waiting sheet keeps its length); the cancelled
sheet and counter are untouched.  (`htight` says `Final Orders` has no
trailing rows with a blank column A, which is what the Sheets read
returns.) -/
theorem claim_C3_thm {tabs : List CredTab} {username oid : String}
    {st : Store} {now : Ym} {r : Resp} {st' : Store}
    (h : approveOrder tabs username oid st now = (r, st'))
    (hr : r.success = true)
    (htight : lastNonEmptyRowA st.finalOrders = st.finalOrders.length) :
    st'.finalOrders =
      st.finalOrders ++
        (serialScan st.waiting (parseOrderIdSerial oid) now).map
          (fun i => pad11 (st.waiting.getD i []))
    ∧ st'.waiting.length = st.waiting.length
    ∧ (∀ i ∈ serialScan st.waiting (parseOrderIdSerial oid) now,
        st'.waiting.getD i [] = writeRowAtoK (st.waiting.getD i []) blank11)
    ∧ (∀ j, j ∉ serialScan st.waiting (parseOrderIdSerial oid) now →
        st'.waiting.getD j [] = st.waiting.getD j [])
    ∧ (∀ j, 1 ≤ j → j < st.waiting.length →
        ¬(rowMonthOk now (st.waiting.getD j []) = true ∧
          serialAt (st.waiting.getD j []) = parseOrderIdSerial oid) →
        st'.waiting.getD j [] = st.waiting.getD j [])
    ∧ st'.cancelled = st.cancelled ∧ st'.serialCell = st.serialCell := by
  obtain ⟨-, -, -, info, -, -, hscan, -, hst⟩ := approveOrder_success_inv h hr
  subst hst
  refine ⟨?_, clearRows_length _ _, ?_, ?_, ?_, rfl, rfl⟩
  · apply appendRowsAtoK_eq_append _ _ ?_ htight ?_
    · simpa using hscan
    · intro v hv
      obtain ⟨i, -, rfl⟩ := List.mem_map.mp hv
      exact pad11_length _
  · intro i hi
    exact clearRows_getD_mem _ _ _ (serialScan_nodup _ _ _) hi (mem_serialScan.mp hi).2.1
  · intro j hj
    exact clearRows_getD_not_mem _ _ _ hj
  · intro j h1 h2 hnm
    apply clearRows_getD_not_mem
    intro hj
    obtain ⟨-, -, hm, hs⟩ := mem_serialScan.mp hj
    exact hnm ⟨hm, hs⟩

/-- Claim C3, witness: the fixture approve of serial `AA1` by the L2 user
appends the copied row to `Final Orders` and the appended block is the
11-cell copy of the matching waiting row. -/
theorem claim_C3_witness :
    (approveOrder fixTabs "mona" "AA1" fixStore fixNow).2.finalOrders =
      fixStore.finalOrders ++
        (serialScan fixStore.waiting (parseOrderIdSerial "AA1") fixNow).map
          (fun i => pad11 (fixStore.waiting.getD i [])) :=
  (claim_C3_thm
    (show approveOrder fixTabs "mona" "AA1" fixStore fixNow =
        ((approveOrder fixTabs "mona" "AA1" fixStore fixNow).1,
         (approveOrder fixTabs "mona" "AA1" fixStore fixNow).2) from rfl)
    (by decide) (by decide)).1

/-! # Claim C4: approving the same serial twice -/

/-- Claim C4: if an approve succeeds, running the same approve again on
the resulting store fails with HTTP 400 and the `NoMatchingRows` message,
leaving the store unchanged — the first call cleared every matching
source row, so the second scan finds none. -/
theorem claim_C4_thm {tabs : List CredTab} {username oid : String}
    {st : Store} {now : Ym} {r1 : Resp} {st1 : Store}
    (h1 : approveOrder tabs username oid st now = (r1, st1))
    (hr1 : r1.success = true) :
    approveOrder tabs username oid st1 now =
      (mkFail 400 "لا يوجد طلبات معلقة لهذا الرقم في هذا الشهر", st1) := by
  obtain ⟨hu, hs, hw, info, hinfo, hl2, -, -, hst⟩ := approveOrder_success_inv h1 hr1
  apply approveOrder_noMatch hu hs hw hinfo hl2
  rw [hst]
  exact serialScan_clearRows_self st.waiting (parseOrderIdSerial oid) now

/-- Claim C4, witness: approving fixture serial `AA1` twice; the second
call answers 400 `NoMatchingRows` with the store unchanged. -/
theorem claim_C4_witness :
    approveOrder fixTabs "mona" "AA1"
        (approveOrder fixTabs "mona" "AA1" fixStore fixNow).2 fixNow =
      (mkFail 400 "لا يوجد طلبات معلقة لهذا الرقم في هذا الشهر",
       (approveOrder fixTabs "mona" "AA1" fixStore fixNow).2) :=
  claim_C4_thm
    (show approveOrder fixTabs "mona" "AA1" fixStore fixNow =
        ((approveOrder fixTabs "mona" "AA1" fixStore fixNow).1,
         (approveOrder fixTabs "mona" "AA1" fixStore fixNow).2) from rfl)
    (by decide)

/-! ## The update scan index -/

theorem updIndexStep_eq (rows : Sheet) (q : String) (now : Ym)
    (acc : List (String × Nat)) (i : Nat) :
    updIndexStep rows q now acc i =
      if updRowHit rows q now i then (cellStr (cellAt (rows.getD i []) 3), i) :: acc
      else acc := by
  unfold updIndexStep updRowHit
  cases h1 : rowMonthOk now (rows.getD i []) <;>
    cases h2 : serialAt (rows.getD i []) == q <;>
    cases h3 : cellFalsy (cellAt (rows.getD i []) 3) <;>
    simp_all

theorem updIndex_fold_eq (rows : Sheet) (q : String) (now : Ym) :
    ∀ (l : List Nat) (acc : List (String × Nat)),
      l.foldl (updIndexStep rows q now) acc =
        (l.filterMap (updEntry rows q now)).reverse ++ acc := by
  intro l
  induction l with
  | nil => intro acc; simp
  | cons i t ih =>
    intro acc
    rw [List.foldl_cons, ih, updIndexStep_eq, List.filterMap_cons]
    unfold updEntry
    by_cases h : updRowHit rows q now i <;> simp [h]

theorem updIndex_eq (rows : Sheet) (q : String) (now : Ym) :
    updIndex rows q now =
      (((List.range rows.length).drop 1).filterMap (updEntry rows q now)).reverse := by
  unfold updIndex
  rw [updIndex_fold_eq, List.append_nil]

theorem pairwise_filterMap_of {α β} (f : α → Option β) (R : α → α → Prop)
    (S : β → β → Prop)
    (hf : ∀ a b, R a b → ∀ x, f a = some x → ∀ y, f b = some y → S x y) :
    ∀ l : List α, l.Pairwise R → (l.filterMap f).Pairwise S := by
  intro l
  induction l with
  | nil => intro _; simp
  | cons a t ih =>
    intro hp
    rw [List.filterMap_cons]
    obtain ⟨hhead, htail⟩ := List.pairwise_cons.mp hp
    cases hfa : f a with
    | none => exact ih htail
    | some x =>
      rw [List.pairwise_cons]
      refine ⟨?_, ih htail⟩
      intro y hy
      obtain ⟨b, hb, hfb⟩ := List.mem_filterMap.mp hy
      exact hf a b (hhead b hb) x hfa y hfb

theorem findRev_max :
    ∀ (E : List (String × Nat)) (code : String) (i : Nat),
      E.Pairwise (fun a b => a.2 < b.2) →
      (E.reverse.find? (fun e => e.1 == code)).map (·.2) = some i →
      (∃ e ∈ E, e.1 = code ∧ e.2 = i) ∧ ∀ e ∈ E, e.1 = code → e.2 ≤ i := by
  intro E
  induction E with
  | nil => intro code i _ h; simp at h
  | cons e E' ih =>
    intro code i hp h
    obtain ⟨hhead, htail⟩ := List.pairwise_cons.mp hp
    rw [List.reverse_cons, List.find?_append] at h
    cases hfind : E'.reverse.find? (fun x => x.1 == code) with
    | some x =>
      rw [hfind,
        show (some x).or (List.find? (fun e => e.1 == code) [e]) = some x from rfl] at h
      obtain ⟨⟨y, hy, hy1, hy2⟩, hmax⟩ :=
        ih code i htail (by rw [hfind]; simpa using h)
      refine ⟨⟨y, List.mem_cons_of_mem _ hy, hy1, hy2⟩, ?_⟩
      intro e' he' hcode
      rcases List.mem_cons.mp he' with rfl | he'
      · have := hhead y hy
        omega
      · exact hmax e' he' hcode
    | none =>
      rw [hfind,
        show Option.or none (List.find? (fun e => e.1 == code) [e]) =
          List.find? (fun e => e.1 == code) [e] from rfl] at h
      by_cases hpe : (e.1 == code) = true
      · rw [@List.find?_cons_of_pos _ (fun x => x.1 == code) e [] hpe] at h
        simp only [Option.map_some', Option.some.injEq] at h
        refine ⟨⟨e, List.mem_cons_self _ _, by simpa using hpe, h⟩, ?_⟩
        intro e' he' hcode
        rcases List.mem_cons.mp he' with rfl | he'
        · omega
        · have := List.find?_eq_none.mp hfind e' (List.mem_reverse.mpr he')
          simp [hcode] at this
      · rw [@List.find?_cons_of_neg _ (fun x => x.1 == code) e [] hpe] at h
        simp at h

theorem updEntry_some {rows : Sheet} {q : String} {now : Ym} {i : Nat}
    {e : String × Nat} (h : updEntry rows q now i = some e) :
    e.2 = i ∧ updRowHit rows q now i = true ∧
      e.1 = cellStr (cellAt (rows.getD i []) 3) := by
  unfold updEntry at h
  by_cases hh : updRowHit rows q now i
  · rw [if_pos hh] at h
    cases h
    exact ⟨rfl, hh, rfl⟩
  · rw [if_neg hh] at h
    cases h

theorem updRowHit_iff {rows : Sheet} {q : String} {now : Ym} {i : Nat} :
    updRowHit rows q now i = true ↔
      rowMonthOk now (rows.getD i []) = true ∧ serialAt (rows.getD i []) = q ∧
        cellFalsy (cellAt (rows.getD i []) 3) = false := by
  unfold updRowHit
  simp [Bool.and_eq_true, beq_iff_eq, and_assoc]

/-- Soundness and maximality of `index[code]`: the looked-up row is a
matching data row, and it is the last (largest-index) matching row. -/
theorem updIndexLookup_spec {rows : Sheet} {q : String} {now : Ym}
    {code : String} {i : Nat}
    (h : updIndexLookup rows q now code = some i) :
    (1 ≤ i ∧ i < rows.length ∧ updMatches rows q now code i) ∧
      ∀ j, 1 ≤ j → j < rows.length → updMatches rows q now code j → j ≤ i := by
  unfold updIndexLookup at h
  rw [updIndex_eq] at h
  set l := (List.range rows.length).drop 1 with hl
  have hpl : l.Pairwise (· < ·) :=
    (List.pairwise_lt_range _).sublist (List.drop_sublist _ _)
  have hpE : (l.filterMap (updEntry rows q now)).Pairwise (fun a b => a.2 < b.2) := by
    apply pairwise_filterMap_of _ (· < ·)
    · intro a b hab x hx y hy
      rw [(updEntry_some hx).1, (updEntry_some hy).1]
      exact hab
    · exact hpl
  obtain ⟨⟨e, he, he1, he2⟩, hmax⟩ := findRev_max _ code i hpE h
  obtain ⟨j, hj, hje⟩ := List.mem_filterMap.mp he
  obtain ⟨hji, hhit, hkey⟩ := updEntry_some hje
  have hjl : 1 ≤ j ∧ j < rows.length := mem_range_drop_one.mp hj
  obtain ⟨hm, hs, hnf⟩ := updRowHit_iff.mp hhit
  subst he2
  rw [hji] at *
  constructor
  · exact ⟨hjl.1, hjl.2, hm, hs, hnf, by rw [← hkey, he1]⟩
  · intro k hk1 hk2 hkm
    obtain ⟨hkmonth, hkserial, hkfalsy, hkcode⟩ := hkm
    have hkhit : updRowHit rows q now k = true :=
      updRowHit_iff.mpr ⟨hkmonth, hkserial, hkfalsy⟩
    have : (code, k) ∈ l.filterMap (updEntry rows q now) := by
      apply List.mem_filterMap.mpr
      refine ⟨k, mem_range_drop_one.mpr ⟨hk1, hk2⟩, ?_⟩
      unfold updEntry
      rw [if_pos hkhit, hkcode]
    simpa using hmax (code, k) this rfl

/-! ## `applyBatch` and `setCellInRow` -/

theorem setSheetCell_length (sh : Sheet) (i col : Nat) (c : Cell) :
    (setSheetCell sh i col c).length = sh.length :=
  List.length_set _ _ _

theorem setSheetCell_getD_ne (sh : Sheet) (i col : Nat) (c : Cell) (j : Nat)
    (h : i ≠ j) : (setSheetCell sh i col c).getD j [] = sh.getD j [] :=
  getD_set_ne _ _ _ _ _ h

theorem setSheetCell_getD_self (sh : Sheet) (i col : Nat) (c : Cell)
    (h : i < sh.length) :
    (setSheetCell sh i col c).getD i [] = setCellInRow (sh.getD i []) col c :=
  getD_set_self _ _ _ _ h

theorem applyBatch_length :
    ∀ (batch : List (Nat × Nat × Rat)) (s : Sheet),
      (applyBatch s batch).length = s.length := by
  intro batch
  induction batch with
  | nil => intro s; rfl
  | cons b bt ih =>
    intro s
    show (applyBatch (setSheetCell (setSheetCell s b.1 8 (Cell.n b.2.1)) b.1 6
      (Cell.n b.2.2)) bt).length = _
    rw [ih, setSheetCell_length, setSheetCell_length]

theorem applyBatch_getD_not_mem :
    ∀ (batch : List (Nat × Nat × Rat)) (s : Sheet) (j : Nat),
      j ∉ batch.map (·.1) →
      (applyBatch s batch).getD j [] = s.getD j [] := by
  intro batch
  induction batch with
  | nil => intro s j _; rfl
  | cons b bt ih =>
    intro s j hj
    rw [List.map_cons] at hj
    have hj1 : b.1 ≠ j := fun h => hj (h ▸ List.mem_cons_self _ _)
    have hj2 : j ∉ bt.map (·.1) := fun h => hj (List.mem_cons_of_mem _ h)
    show (applyBatch (setSheetCell (setSheetCell s b.1 8 (Cell.n b.2.1)) b.1 6
      (Cell.n b.2.2)) bt).getD j [] = _
    rw [ih _ _ hj2, setSheetCell_getD_ne _ _ _ _ _ hj1,
      setSheetCell_getD_ne _ _ _ _ _ hj1]

theorem applyBatch_getD_mem :
    ∀ (batch : List (Nat × Nat × Rat)) (s : Sheet) (e : Nat × Nat × Rat),
      (batch.map (·.1)).Nodup → e ∈ batch → e.1 < s.length →
      (applyBatch s batch).getD e.1 [] =
        setCellInRow (setCellInRow (s.getD e.1 []) 8 (Cell.n e.2.1)) 6
          (Cell.n e.2.2) := by
  intro batch
  induction batch with
  | nil => intro s e _ he _; simp at he
  | cons b bt ih =>
    intro s e hnd he hlen
    rw [List.map_cons, List.nodup_cons] at hnd
    obtain ⟨hb, hndt⟩ := hnd
    show (applyBatch (setSheetCell (setSheetCell s b.1 8 (Cell.n b.2.1)) b.1 6
      (Cell.n b.2.2)) bt).getD e.1 [] = _
    rcases List.mem_cons.mp he with rfl | he
    · rw [applyBatch_getD_not_mem bt _ _ hb,
        setSheetCell_getD_self _ _ _ _ (by rw [setSheetCell_length]; exact hlen),
        setSheetCell_getD_self _ _ _ _ hlen]
    · have hne : b.1 ≠ e.1 := fun hEq => hb (hEq ▸ List.mem_map.mpr ⟨e, he, rfl⟩)
      rw [ih _ _ hndt he (by rw [setSheetCell_length, setSheetCell_length]; exact hlen),
        setSheetCell_getD_ne _ _ _ _ _ hne, setSheetCell_getD_ne _ _ _ _ _ hne]

theorem cellAt_setCellInRow_ne (r : Row) (j : Nat) (c : Cell) (k : Nat)
    (h : k ≠ j) : cellAt (setCellInRow r j c) k = cellAt r k := by
  unfold setCellInRow cellAt
  by_cases hlt : j < r.length
  · rw [if_pos hlt]
    exact getD_set_ne _ _ _ _ _ (Ne.symm h)
  · rw [if_neg hlt]
    rw [List.getD_eq_getElem?_getD, List.getD_eq_getElem?_getD]
    by_cases hk : k < r.length
    · rw [List.getElem?_append_left
          (show k < (r ++ List.replicate (j - r.length) (Cell.s "")).length by
            simp [List.length_append, List.length_replicate]; omega),
        List.getElem?_append_left hk]
    · have hr : r[k]? = none := List.getElem?_eq_none (by omega)
      rw [hr]
      by_cases hkj : k < j
      · rw [List.getElem?_append_left
            (show k < (r ++ List.replicate (j - r.length) (Cell.s "")).length by
              simp [List.length_append, List.length_replicate]; omega),
          List.getElem?_append_right (Nat.le_of_not_lt hk),
          List.getElem?_replicate, if_pos (by omega)]
        rfl
      · rw [List.getElem?_eq_none
            (by simp [List.length_append, List.length_replicate]; omega)]

/-! ## `updBatch` -/

theorem updBatchStep_skip {rows : Sheet} {q : String} {now : Ym}
    {acc : List (Nat × Nat × Rat)} {item : UpdItem}
    (h : item.productCode = "" ∨ updIndexLookup rows q now item.productCode = none) :
    updBatchStep rows q now acc item = acc := by
  unfold updBatchStep
  by_cases hc : item.productCode = ""
  · rw [if_pos hc]
  · rw [if_neg hc]
    rcases h with h | h
    · exact absurd h hc
    · simp only [h]

theorem updBatch_go_nil (rows : Sheet) (q : String) (now : Ym) :
    ∀ (items : List UpdItem) (acc : List (Nat × Nat × Rat)),
      (∀ item ∈ items, item.productCode = "" ∨
        updIndexLookup rows q now item.productCode = none) →
      items.foldl (updBatchStep rows q now) acc = acc := by
  intro items
  induction items with
  | nil => intro acc _; rfl
  | cons i t ih =>
    intro acc h
    rw [List.foldl_cons, updBatchStep_skip (h i (List.mem_cons_self _ _))]
    exact ih acc (fun item hm => h item (List.mem_cons_of_mem _ hm))

theorem updBatch_nil {rows : Sheet} {q : String} {now : Ym} {items : List UpdItem}
    (h : ∀ item ∈ items, item.productCode = "" ∨
      updIndexLookup rows q now item.productCode = none) :
    updBatch rows q now items = [] :=
  updBatch_go_nil rows q now items [] h

theorem updBatch_go_mem (rows : Sheet) (q : String) (now : Ym) :
    ∀ (items : List UpdItem) (acc : List (Nat × Nat × Rat)) (e : Nat × Nat × Rat),
      e ∈ items.foldl (updBatchStep rows q now) acc →
      e ∈ acc ∨ ∃ item ∈ items, item.productCode ≠ "" ∧
        updIndexLookup rows q now item.productCode = some e.1 ∧
        e.2.1 = (max 0 ((jsParseIntCell item.quantity).getD 0)).toNat ∧
        e.2.2 = pF0 (cellAt (rows.getD e.1 []) 5) * (e.2.1 : Rat) := by
  intro items
  induction items with
  | nil => intro acc e he; exact Or.inl he
  | cons i t ih =>
    intro acc e he
    rw [List.foldl_cons] at he
    rcases ih _ e he with hacc | ⟨item, hm, rest⟩
    · unfold updBatchStep at hacc
      by_cases hc : i.productCode = ""
      · rw [if_pos hc] at hacc
        exact Or.inl hacc
      · rw [if_neg hc] at hacc
        cases hl : updIndexLookup rows q now i.productCode with
        | none =>
          simp only [hl] at hacc
          exact Or.inl hacc
        | some idx =>
          simp only [hl] at hacc
          rcases List.mem_append.mp hacc with h1 | h2
          · exact Or.inl h1
          · simp only [List.mem_singleton] at h2
            subst h2
            exact Or.inr ⟨i, List.mem_cons_self _ _, hc, hl, rfl, rfl⟩
    · exact Or.inr ⟨item, List.mem_cons_of_mem _ hm, rest⟩

theorem mem_updBatch {rows : Sheet} {q : String} {now : Ym} {items : List UpdItem}
    {e : Nat × Nat × Rat} (he : e ∈ updBatch rows q now items) :
    ∃ item ∈ items, item.productCode ≠ "" ∧
      updIndexLookup rows q now item.productCode = some e.1 ∧
      e.2.1 = (max 0 ((jsParseIntCell item.quantity).getD 0)).toNat ∧
      e.2.2 = pF0 (cellAt (rows.getD e.1 []) 5) * (e.2.1 : Rat) :=
  (updBatch_go_mem rows q now items [] e he).resolve_left (by simp)

/-! ## Inversion of the update handler -/

theorem updateWaitingOrder_success_inv {tabs : List CredTab}
    {username orderId : String} {items : List UpdItem} {st : Store} {now : Ym}
    {r : Resp} {st' : Store}
    (h : updateWaitingOrder tabs username orderId items st now = (r, st'))
    (hr : r.success = true) :
    username ≠ "" ∧ parseOrderIdSerial orderId ≠ "" ∧ items ≠ [] ∧
    parseOrderIdStatus orderId = "waiting" ∧
    ∃ info, getUserInfoByUsername tabs username = .ok (some info) ∧
      jsUpper info.level = "L2" ∧
      updBatch st.waiting (parseOrderIdSerial orderId) now items ≠ [] ∧
      r = okResp ∧
      st' = { st with
        waiting := applyBatch st.waiting
          (updBatch st.waiting (parseOrderIdSerial orderId) now items) } := by
  simp only [updateWaitingOrder] at h
  by_cases hc1 : username = "" ∨ parseOrderIdSerial orderId = "" ∨ items = []
  · rw [if_pos hc1] at h
    injection h with h1 _
    rw [← h1] at hr
    simp [mkFail] at hr
  rw [if_neg hc1] at h
  by_cases hc2 : parseOrderIdStatus orderId ≠ "waiting"
  · rw [if_pos hc2] at h
    injection h with h1 _
    rw [← h1] at hr
    simp [mkFail] at hr
  rw [if_neg hc2] at h
  cases heq : getUserInfoByUsername tabs username with
  | error e =>
    simp only [heq] at h
    injection h with h1 _
    rw [← h1] at hr
    simp [mkFail] at hr
  | ok oinfo =>
    cases oinfo with
    | none =>
      simp only [heq] at h
      injection h with h1 _
      rw [← h1] at hr
      simp [mkFail] at hr
    | some info =>
      simp only [heq] at h
      by_cases hl2 : jsUpper info.level ≠ "L2"
      · rw [if_pos hl2] at h
        injection h with h1 _
        rw [← h1] at hr
        simp [mkFail] at hr
      rw [if_neg hl2] at h
      by_cases hb : updBatch st.waiting (parseOrderIdSerial orderId) now items = []
      · rw [if_pos hb] at h
        injection h with h1 _
        rw [← h1] at hr
        simp [mkFail] at hr
      rw [if_neg hb] at h
      injection h with h1 h2
      push_neg at hc1
      exact ⟨hc1.1, hc1.2.1, hc1.2.2, not_not.mp hc2, info, rfl,
        not_not.mp hl2, hb, h1.symm, h2.symm⟩

theorem updateWaitingOrder_fail_state {tabs : List CredTab}
    {username orderId : String} {items : List UpdItem} {st : Store} {now : Ym}
    {r : Resp} {st' : Store}
    (h : updateWaitingOrder tabs username orderId items st now = (r, st'))
    (hrf : r.success = false) : st' = st := by
  simp only [updateWaitingOrder] at h
  by_cases hc1 : username = "" ∨ parseOrderIdSerial orderId = "" ∨ items = []
  · rw [if_pos hc1] at h
    injection h with _ h2
    exact h2.symm
  rw [if_neg hc1] at h
  by_cases hc2 : parseOrderIdStatus orderId ≠ "waiting"
  · rw [if_pos hc2] at h
    injection h with _ h2
    exact h2.symm
  rw [if_neg hc2] at h
  cases heq : getUserInfoByUsername tabs username with
  | error e =>
    simp only [heq] at h
    injection h with _ h2
    exact h2.symm
  | ok oinfo =>
    cases oinfo with
    | none =>
      simp only [heq] at h
      injection h with _ h2
      exact h2.symm
    | some info =>
      simp only [heq] at h
      by_cases hl2 : jsUpper info.level ≠ "L2"
      · rw [if_pos hl2] at h
        injection h with _ h2
        exact h2.symm
      rw [if_neg hl2] at h
      by_cases hb : updBatch st.waiting (parseOrderIdSerial orderId) now items = []
      · rw [if_pos hb] at h
        injection h with _ h2
        exact h2.symm
      rw [if_neg hb] at h
      injection h with h1 _
      rw [← h1] at hrf
      simp [okResp] at hrf

theorem updateWaitingOrder_noMatch {tabs : List CredTab}
    {username orderId : String} {items : List UpdItem} {st : Store} {now : Ym}
    {info : UserInfo}
    (hu : username ≠ "") (hs : parseOrderIdSerial orderId ≠ "")
    (hi : items ≠ []) (hw : parseOrderIdStatus orderId = "waiting")
    (hinfo : getUserInfoByUsername tabs username = .ok (some info))
    (hl2 : jsUpper info.level = "L2")
    (hbatch : updBatch st.waiting (parseOrderIdSerial orderId) now items = []) :
    updateWaitingOrder tabs username orderId items st now =
      (mkFail 400 "لم يتم العثور على بنود لتعديلها", st) := by
  simp only [updateWaitingOrder, hinfo]
  rw [if_neg (by simp [hu, hs, hi]), if_neg (by simp [hw]),
    if_neg (by simp [hl2]), if_pos hbatch]

/-! # Claim C10: update with no matching rows writes nothing -/

/-- Claim C10: (i) if an L2 update names only product codes that match no
current-month waiting row of the serial (or the serial matches nothing),
the handler answers 400 with the `no items found` message and the store
is exactly as before; (ii) more generally, every failure response of the
update handler leaves the store unchanged. -/
theorem claim_C10_thm :
    (∀ (tabs : List CredTab) (username orderId : String) (items : List UpdItem)
        (st : Store) (now : Ym) (info : UserInfo),
      username ≠ "" → parseOrderIdSerial orderId ≠ "" → items ≠ [] →
      parseOrderIdStatus orderId = "waiting" →
      getUserInfoByUsername tabs username = .ok (some info) →
      jsUpper info.level = "L2" →
      (∀ item ∈ items, item.productCode = "" ∨
        ∀ j, 1 ≤ j → j < st.waiting.length →
          ¬updMatches st.waiting (parseOrderIdSerial orderId) now item.productCode j) →
      updateWaitingOrder tabs username orderId items st now =
        (mkFail 400 "لم يتم العثور على بنود لتعديلها", st))
    ∧ (∀ (tabs : List CredTab) (username orderId : String) (items : List UpdItem)
        (st : Store) (now : Ym) (r : Resp) (st' : Store),
      updateWaitingOrder tabs username orderId items st now = (r, st') →
      r.success = false → st' = st) := by
  constructor
  · intro tabs username orderId items st now info hu hs hi hw hinfo hl2 hnone
    apply updateWaitingOrder_noMatch hu hs hi hw hinfo hl2
    apply updBatch_nil
    intro item hm
    rcases hnone item hm with hc | hno
    · exact Or.inl hc
    · right
      cases hl : updIndexLookup st.waiting (parseOrderIdSerial orderId) now
          item.productCode with
      | none => rfl
      | some i =>
        obtain ⟨⟨h1, h2, hmch⟩, -⟩ := updIndexLookup_spec hl
        exact absurd hmch (hno i h1 h2)
  · intro tabs username orderId items st now r st' h hrf
    exact updateWaitingOrder_fail_state h hrf

/-- Claim C10, witness: an update of fixture serial `AA1` naming only the
unknown product code `P9` answers 400 and leaves the store untouched; a
failing call leaves the state equal to the input state. -/
theorem claim_C10_witness :
    updateWaitingOrder fixTabs "mona" "AA1" [⟨"P9", Cell.n 5⟩] fixStore fixNow =
      (mkFail 400 "لم يتم العثور على بنود لتعديلها", fixStore) := by
  apply claim_C10_thm.1 fixTabs "mona" "AA1" [⟨"P9", Cell.n 5⟩] fixStore fixNow
    ⟨"ClientA", "HQ", false, "L2", false, "SHEET1"⟩ (by decide) (by decide)
    (by decide) (by decide) rfl (by decide)
  intro item hm
  right
  intro j h1 h2
  simp only [List.mem_singleton] at hm
  subst hm
  have h3 : j < 3 := by simpa [fixStore] using h2
  interval_cases j <;> simp only [updMatches] <;> decide

/-! # Claim C7: edit of a waiting order -/

/-- Claim C7, counterexample: with two current-month waiting rows sharing
serial `AA1` and product code `P1`, an update of that code succeeds but
only the later row is written; the earlier matching row keeps its old
quantity cell, although the claim says every matching row is updated. -/
theorem claim_C7_cex :
    (updateWaitingOrder fixTabs "mona" "AA1" [⟨"P1", Cell.n 5⟩]
        fixStoreDup fixNow).1.success = true
    ∧ rowMonthOk fixNow (fixStoreDup.waiting.getD 1 []) = true
    ∧ serialAt (fixStoreDup.waiting.getD 1 []) = "AA1"
    ∧ cellStr (cellAt (fixStoreDup.waiting.getD 1 []) 3) = "P1"
    ∧ cellAt ((updateWaitingOrder fixTabs "mona" "AA1" [⟨"P1", Cell.n 5⟩]
        fixStoreDup fixNow).2.waiting.getD 1 []) 8 = Cell.n 3
    ∧ Cell.n 3 ≠ Cell.n 5 := by
  refine ⟨by decide, by decide, by decide, by decide, by decide, by decide⟩

/-- Claim C7, amended: for each requested product code the update writes
only the quantity cell (column I) and the subtotal cell (column G) — with
quantity floored at 0 and subtotal recomputed as the stored unit price
times the new quantity — of the **last** (largest-index) matching
`(serial, productCode)` row of the current month; all other cells of that
row, all other rows (including earlier duplicate matches), the other
sheets and the counter are unchanged. -/
theorem claim_C7_thm {tabs : List CredTab} {username orderId : String}
    {items : List UpdItem} {st : Store} {now : Ym} {r : Resp} {st' : Store}
    (h : updateWaitingOrder tabs username orderId items st now = (r, st'))
    (hr : r.success = true)
    (hnd : ((updBatch st.waiting (parseOrderIdSerial orderId) now items).map
      (·.1)).Nodup) :
    (∀ e ∈ updBatch st.waiting (parseOrderIdSerial orderId) now items,
      st'.waiting.getD e.1 [] =
        setCellInRow (setCellInRow (st.waiting.getD e.1 []) 8 (Cell.n e.2.1)) 6
          (Cell.n e.2.2))
    ∧ (∀ e ∈ updBatch st.waiting (parseOrderIdSerial orderId) now items,
        ∀ k, k ≠ 6 → k ≠ 8 →
          cellAt (st'.waiting.getD e.1 []) k = cellAt (st.waiting.getD e.1 []) k)
    ∧ (∀ j, j ∉ (updBatch st.waiting (parseOrderIdSerial orderId) now items).map
          (·.1) →
        st'.waiting.getD j [] = st.waiting.getD j [])
    ∧ st'.waiting.length = st.waiting.length
    ∧ st'.finalOrders = st.finalOrders ∧ st'.cancelled = st.cancelled
    ∧ st'.serialCell = st.serialCell
    ∧ (∀ e ∈ updBatch st.waiting (parseOrderIdSerial orderId) now items,
        ∃ item ∈ items, item.productCode ≠ "" ∧
          updIndexLookup st.waiting (parseOrderIdSerial orderId) now
            item.productCode = some e.1 ∧
          e.2.1 = (max 0 ((jsParseIntCell item.quantity).getD 0)).toNat ∧
          e.2.2 = pF0 (cellAt (st.waiting.getD e.1 []) 5) * (e.2.1 : Rat))
    ∧ (∀ code i,
        updIndexLookup st.waiting (parseOrderIdSerial orderId) now code = some i →
        (1 ≤ i ∧ i < st.waiting.length ∧
          updMatches st.waiting (parseOrderIdSerial orderId) now code i) ∧
        ∀ j, 1 ≤ j → j < st.waiting.length →
          updMatches st.waiting (parseOrderIdSerial orderId) now code j → j ≤ i) := by
  obtain ⟨-, -, -, -, info, -, -, -, -, hst⟩ := updateWaitingOrder_success_inv h hr
  subst hst
  have hlt : ∀ e ∈ updBatch st.waiting (parseOrderIdSerial orderId) now items,
      e.1 < st.waiting.length := by
    intro e he
    obtain ⟨item, -, -, hl, -, -⟩ := mem_updBatch he
    exact (updIndexLookup_spec hl).1.2.1
  refine ⟨?_, ?_, ?_, applyBatch_length _ _, rfl, rfl, rfl, ?_, ?_⟩
  · intro e he
    exact applyBatch_getD_mem _ _ _ hnd he (hlt e he)
  · intro e he k hk6 hk8
    dsimp only
    rw [applyBatch_getD_mem _ _ _ hnd he (hlt e he),
      cellAt_setCellInRow_ne _ _ _ _ hk6, cellAt_setCellInRow_ne _ _ _ _ hk8]
  · intro j hj
    exact applyBatch_getD_not_mem _ _ _ hj
  · intro e he
    exact mem_updBatch he
  · intro code i hl
    exact updIndexLookup_spec hl

set_option maxRecDepth 40000 in
/-- Claim C7, witness: the fixture edit (quantity 5 of product `P1`,
unit price 10) writes 5 to column I and 50 to column G of the last
matching row (index 2). -/
theorem claim_C7_witness :
    (updateWaitingOrder fixTabs "mona" "AA1" [⟨"P1", Cell.n 5⟩]
        fixStoreDup fixNow).2.waiting.getD 2 [] =
      setCellInRow (setCellInRow (fixStoreDup.waiting.getD 2 []) 8 (Cell.n 5)) 6
        (Cell.n 50) := by
  have hb : updBatch fixStoreDup.waiting (parseOrderIdSerial "AA1") fixNow
      [⟨"P1", Cell.n 5⟩] = [(2, 5, 50)] := by
    with_unfolding_all rfl
  have happ := (claim_C7_thm
    (show updateWaitingOrder fixTabs "mona" "AA1" [⟨"P1", Cell.n 5⟩]
        fixStoreDup fixNow =
      ((updateWaitingOrder fixTabs "mona" "AA1" [⟨"P1", Cell.n 5⟩]
          fixStoreDup fixNow).1,
       (updateWaitingOrder fixTabs "mona" "AA1" [⟨"P1", Cell.n 5⟩]
          fixStoreDup fixNow).2) from rfl)
    (by decide) (by rw [hb]; decide)).1 (2, 5, 50)
    (by rw [hb]; exact List.mem_singleton.mpr rfl)
  exact happ

/-! ## Scans ignore rows whose step condition fails -/

theorem foldl_skip_filter {α β} (p : α → Bool) (f : β → α → β)
    (h : ∀ b a, p a = false → f b a = b) :
    ∀ (l : List α) (b : β), l.foldl f b = (l.filter p).foldl f b := by
  intro l
  induction l with
  | nil => intro b; rfl
  | cons a t ih =>
    intro b
    by_cases hp : p a = true
    · rw [List.foldl_cons, List.filter_cons_of_pos hp, List.foldl_cons, ih]
    · rw [List.foldl_cons, h b a (by simpa using hp),
        List.filter_cons_of_neg (by simpa using hp), ih]

theorem keepMonthRows_drop (now : Ym) (rows : Sheet) :
    (keepMonthRows now rows).drop 1 = (rows.drop 1).filter (rowMonthOk now) := by
  cases rows <;> simp [keepMonthRows]

theorem approvalsSummaryStep_skip (now : Ym) (acc : List BranchSummary) (row : Row)
    (h : rowMonthOk now row = false) : approvalsSummaryStep now acc row = acc := by
  simp [approvalsSummaryStep, h]

theorem orderDetailsStep_skip (cmap : List (String × Cell)) (now : Ym)
    (sq bq : String) (acc : List LineItemImg × String) (row : Row)
    (h : rowMonthOk now row = false) :
    orderDetailsStep cmap now sq bq acc row = acc := by
  simp [orderDetailsStep, h]

theorem pendingStep_skip (now : Ym) (acc : List PendingEntry) (row : Row)
    (h : rowMonthOk now row = false) : pendingStep now acc row = acc := by
  unfold pendingStep
  unfold rowMonthOk at h
  cases hd : decodeDateCell (cellAt row 0) with
  | none => rfl
  | some d =>
    rw [hd] at h
    simp only [decide_eq_false_iff_not] at h
    simp [h]

theorem summaryStep_skip (cmap : List (String × Cell)) (sk : String) (now : Ym)
    (acc : List SummaryEntry) (row : Row)
    (h : rowMonthOk now row = false) : summaryStep cmap sk now acc row = acc := by
  unfold summaryStep
  unfold rowMonthOk at h
  cases hd : decodeDateCell (cellAt row 0) with
  | none => rfl
  | some d =>
    rw [hd] at h
    simp only [decide_eq_false_iff_not] at h
    simp [h]

theorem exportStep_skip (sel : List String) (sk : String) (now : Ym)
    (acc : List ExportEntry) (row : Row)
    (h : rowMonthOk now row = false) : exportStep sel sk now acc row = acc := by
  unfold exportStep
  unfold rowMonthOk at h
  cases hd : decodeDateCell (cellAt row 0) with
  | none => rfl
  | some d =>
    rw [hd] at h
    simp only [decide_eq_false_iff_not] at h
    simp [h]

/-! # Claim C5: month scoping of every ledger scan -/

/-- Claim C5: a row whose date cell does not decode to the current
year/month is invisible to every ledger operation — the approve/cancel
scan never selects it (so it is neither copied nor cleared), the edit
index never points at it (so it is never written), and the
summary/pending/details/by-status/export scans compute the same output
when all such rows are removed. -/
theorem claim_C5_thm :
    (∀ (rows : Sheet) (q : String) (now : Ym) (i : Nat),
      i ∈ serialScan rows q now → rowMonthOk now (rows.getD i []) = true)
    ∧ (∀ (rows : Sheet) (q : String) (now : Ym) (code : String) (i : Nat),
        updIndexLookup rows q now code = some i →
        rowMonthOk now (rows.getD i []) = true)
    ∧ (∀ (rows : Sheet) (now : Ym),
        approvalsSummaryCore rows now = approvalsSummaryCore (keepMonthRows now rows) now)
    ∧ (∀ (rows : Sheet) (now : Ym),
        pendingOrdersCore rows now = pendingOrdersCore (keepMonthRows now rows) now)
    ∧ (∀ (cmap : List (String × Cell)) (rows : Sheet) (now : Ym) (sq bq : String),
        orderDetailsCore cmap rows now sq bq =
          orderDetailsCore cmap (keepMonthRows now rows) now sq bq)
    ∧ (∀ (cmap : List (String × Cell)) (rows : Sheet) (sk : String) (now : Ym)
        (acc : List SummaryEntry),
        ordersSummaryProcessSheet cmap rows sk now acc =
          ordersSummaryProcessSheet cmap (keepMonthRows now rows) sk now acc)
    ∧ (∀ (sel : List String) (rows : Sheet) (sk : String) (now : Ym)
        (acc : List ExportEntry),
        exportProcessSheet sel rows sk now acc =
          exportProcessSheet sel (keepMonthRows now rows) sk now acc) := by
  refine ⟨?_, ?_, ?_, ?_, ?_, ?_, ?_⟩
  · intro rows q now i hi
    exact (mem_serialScan.mp hi).2.2.1
  · intro rows q now code i h
    exact (updIndexLookup_spec h).1.2.2.1
  · intro rows now
    unfold approvalsSummaryCore
    rw [keepMonthRows_drop]
    exact foldl_skip_filter _ _ (fun b a ha => approvalsSummaryStep_skip now b a ha) _ _
  · intro rows now
    unfold pendingOrdersCore
    rw [keepMonthRows_drop]
    exact foldl_skip_filter _ _ (fun b a ha => pendingStep_skip now b a ha) _ _
  · intro cmap rows now sq bq
    unfold orderDetailsCore
    rw [keepMonthRows_drop]
    exact foldl_skip_filter _ _ (fun b a ha => orderDetailsStep_skip cmap now sq bq b a ha) _ _
  · intro cmap rows sk now acc
    unfold ordersSummaryProcessSheet
    rw [keepMonthRows_drop]
    exact foldl_skip_filter _ _ (fun b a ha => summaryStep_skip cmap sk now b a ha) _ _
  · intro sel rows sk now acc
    unfold exportProcessSheet
    rw [keepMonthRows_drop]
    exact foldl_skip_filter _ _ (fun b a ha => exportStep_skip sel sk now b a ha) _ _

/-- Claim C5, witness: the fixture approve scan selects row 1, which is
indeed dated in the current month, and the fixture edit index points at a
current-month row. -/
theorem claim_C5_witness :
    rowMonthOk fixNow (fixStore.waiting.getD 1 []) = true ∧
    rowMonthOk fixNow (fixStoreDup.waiting.getD 2 []) = true :=
  ⟨claim_C5_thm.1 fixStore.waiting "AA1" fixNow 1 (by decide),
   claim_C5_thm.2.1 fixStoreDup.waiting "AA1" fixNow "P1" 2 (by decide)⟩

/-! # Claim C8: submit routing, row shape and returned serial -/

/-- Claim C8: a successful submit generates one fresh serial, appends one
row per item — shaped `[date, branch, username, productCode, productName,
unitPrice, subtotal, category, quantity, "", serial]` with
`subtotal = unitPrice × quantity` unless the item supplies a numeric
subtotal — to `Final Orders` when the user's level is L2 and to
`Waiting for Approval` otherwise, stores the serial in column K of every
appended row, writes it to the counter cell, and returns it in the
response. -/
theorem claim_C8_thm {tabs : List CredTab} {username branchName : String}
    {items : List OrderItem} {st : Store} {d : String} {r : Resp} {st' : Store}
    (h : submitOrder tabs username branchName items st d = (r, st'))
    (hr : r.success = true) :
    branchName ≠ "" ∧ items ≠ [] ∧
    ∃ info, getUserInfoByUsername tabs username = .ok (some info) ∧
      r = { okResp with orderSerial := some (getNextOrderSerial st.serialCell) } ∧
      st'.serialCell = some (Cell.s (getNextOrderSerial st.serialCell)) ∧
      (∀ row ∈ items.map (submitRowOf d branchName username
          (getNextOrderSerial st.serialCell)),
        cellAt row 10 = Cell.s (getNextOrderSerial st.serialCell)) ∧
      (∀ item : OrderItem,
        submitRowOf d branchName username (getNextOrderSerial st.serialCell) item =
          [Cell.s d, Cell.s branchName, Cell.s username, Cell.s item.productCode,
           Cell.s item.productName, Cell.n (item.unitPrice.getD 0),
           Cell.n (item.subtotal.getD (item.unitPrice.getD 0 * item.quantity.getD 0)),
           Cell.s (item.category.getD ""), Cell.n (item.quantity.getD 0), Cell.s "",
           Cell.s (getNextOrderSerial st.serialCell)]) ∧
      (if jsUpper (if info.level = "" then "L1" else info.level) = "L2" then
        st'.finalOrders = appendRowsAtoK st.finalOrders
          (items.map (submitRowOf d branchName username
            (getNextOrderSerial st.serialCell))) ∧
        st'.waiting = st.waiting ∧ st'.cancelled = st.cancelled
      else
        st'.waiting = appendRowsAtoK st.waiting
          (items.map (submitRowOf d branchName username
            (getNextOrderSerial st.serialCell))) ∧
        st'.finalOrders = st.finalOrders ∧ st'.cancelled = st.cancelled) := by
  simp only [submitOrder] at h
  by_cases hc1 : branchName = "" ∨ items = []
  · rw [if_pos hc1] at h
    injection h with h1 _
    rw [← h1] at hr
    simp [mkFail] at hr
  rw [if_neg hc1] at h
  cases heq : getUserInfoByUsername tabs username with
  | error e =>
    simp only [heq] at h
    injection h with h1 _
    rw [← h1] at hr
    simp [mkFail] at hr
  | ok oinfo =>
    cases oinfo with
    | none =>
      simp only [heq] at h
      injection h with h1 _
      rw [← h1] at hr
      simp [mkFail] at hr
    | some info =>
      simp only [heq] at h
      by_cases hforb : jsUpper (if info.level = "" then "L1" else info.level) ≠ "L2" ∧
          jsTrim info.branch ≠ "" ∧ jsTrim info.branch ≠ branchName
      · rw [if_pos hforb] at h
        injection h with h1 _
        rw [← h1] at hr
        simp [mkFail] at hr
      rw [if_neg hforb] at h
      push_neg at hc1
      by_cases hlevel : jsUpper (if info.level = "" then "L1" else info.level) = "L2"
      · rw [if_pos hlevel] at h
        injection h with h1 h2
        refine ⟨hc1.1, hc1.2, info, rfl, h1.symm, ?_, ?_, fun item => rfl, ?_⟩
        · rw [← h2]
        · intro row hrow
          obtain ⟨item, -, rfl⟩ := List.mem_map.mp hrow
          rfl
        · rw [if_pos hlevel, ← h2]
          exact ⟨rfl, rfl, rfl⟩
      · rw [if_neg hlevel] at h
        injection h with h1 h2
        refine ⟨hc1.1, hc1.2, info, rfl, h1.symm, ?_, ?_, fun item => rfl, ?_⟩
        · rw [← h2]
        · intro row hrow
          obtain ⟨item, -, rfl⟩ := List.mem_map.mp hrow
          rfl
        · rw [if_neg hlevel, ← h2]
          exact ⟨rfl, rfl, rfl⟩

/-- Claim C8, witness: the spec's submit scenario — L1 user `amr`
(branch `Maadi`) submits one item on a fresh counter; the response
carries serial `AA1` and the row
`[now, Maadi, amr, P1, Juice, 10, 30, Drinks, 3, "", AA1]` is appended to
`Waiting for Approval`. -/
theorem claim_C8_witness :
    (submitOrder fixTabs "amr" "Maadi" [fixItem] fixStoreEmpty fixDate).1.orderSerial
        = some "AA1"
    ∧ (submitOrder fixTabs "amr" "Maadi" [fixItem] fixStoreEmpty fixDate).2.waiting
        = appendRowsAtoK fixStoreEmpty.waiting
            ([fixItem].map (submitRowOf fixDate "Maadi" "amr" "AA1"))
    ∧ submitRowOf fixDate "Maadi" "amr" "AA1" fixItem =
        [Cell.s fixDate, Cell.s "Maadi", Cell.s "amr", Cell.s "P1", Cell.s "Juice",
         Cell.n 10, Cell.n 30, Cell.s "Drinks", Cell.n 3, Cell.s "", Cell.s "AA1"] := by
  obtain ⟨-, -, info, hinfo, hresp, -, -, hshape, hsheets⟩ :=
    claim_C8_thm
      (show submitOrder fixTabs "amr" "Maadi" [fixItem] fixStoreEmpty fixDate =
          ((submitOrder fixTabs "amr" "Maadi" [fixItem] fixStoreEmpty fixDate).1,
           (submitOrder fixTabs "amr" "Maadi" [fixItem] fixStoreEmpty fixDate).2)
        from rfl)
      (by decide)
  have hinfo2 : getUserInfoByUsername fixTabs "amr" =
      .ok (some (⟨"ClientA", "Maadi", false, "L1", false, "SHEET1"⟩ : UserInfo)) := rfl
  rw [hinfo2] at hinfo
  simp only [Except.ok.injEq, Option.some.injEq] at hinfo
  rw [← hinfo] at hsheets
  rw [if_neg (by decide)] at hsheets
  refine ⟨?_, ?_, ?_⟩
  · rw [hresp]
    with_unfolding_all rfl
  · exact hsheets.1
  · have hs := hshape fixItem
    refine Eq.trans ?_ (Eq.trans hs ?_) <;> with_unfolding_all rfl

/-! # Claim C9: first-match credential lookup -/

theorem loginScanRows_skip (t : CredTab) (username password : String)
    (r : Row) (rest : List Row)
    (h : loginRowBlank r ∨ ¬loginRowMatch r username password) :
    loginScanRows t username password (r :: rest) =
      loginScanRows t username password rest := by
  by_cases hb : loginRowBlank r
  · simp only [loginScanRows]
    unfold loginRowBlank at hb
    rw [if_pos hb]
  · have hm : ¬loginRowMatch r username password := h.resolve_left hb
    simp only [loginScanRows]
    unfold loginRowBlank at hb
    unfold loginRowMatch at hm
    rw [if_neg hb, if_neg hm]

theorem loginScanRows_eq_of_skips (t : CredTab) (username password : String)
    (l : List Row) :
    ∀ pre : List Row,
      (∀ r' ∈ pre, loginRowBlank r' ∨ ¬loginRowMatch r' username password) →
      loginScanRows t username password (pre ++ l) =
        loginScanRows t username password l
  | [], _ => rfl
  | r :: pre', h => by
    rw [show (r :: pre') ++ l = r :: (pre' ++ l) from rfl,
      loginScanRows_skip t username password r _ (h r (List.mem_cons_self r pre')),
      loginScanRows_eq_of_skips t username password l pre'
        (fun r' hr' => h r' (List.mem_cons_of_mem r hr'))]

theorem loginScanRows_first_match (t : CredTab) (username password : String)
    (row : Row) (post : List Row)
    (hm : loginRowMatch row username password) (hnb : ¬loginRowBlank row) :
    loginScanRows t username password (row :: post) =
      if tabSheetId t = "" then
        .error ("BudgetSheetId missing in " ++ t.title ++ "!F2")
      else .ok (some (mkUserInfo t row (tabSheetId t))) := by
  simp only [loginScanRows]
  unfold loginRowBlank at hnb
  unfold loginRowMatch at hm
  rw [if_neg hnb, if_pos hm]

theorem findClientTabGo_skip (username password : String) (t : CredTab)
    (rest : List CredTab)
    (h : loginScanRows t username password t.rows = .ok none) :
    findClientTabGo username password (t :: rest) =
      findClientTabGo username password rest := by
  simp only [findClientTabGo, h]

theorem findClientTabGo_append (username password : String) :
    ∀ (pre : List CredTab) (t : CredTab) (post : List CredTab),
      (∀ t' ∈ pre, loginScanRows t' username password t'.rows = .ok none) →
      loginScanRows t username password t.rows ≠ .ok none →
      findClientTabGo username password (pre ++ t :: post) =
        loginScanRows t username password t.rows
  | [], t, post, _, hne => by
    show findClientTabGo username password (t :: post) = _
    simp only [findClientTabGo]
    cases hscan : loginScanRows t username password t.rows with
    | error e => rfl
    | ok o =>
      cases o with
      | some info => rfl
      | none => exact absurd hscan hne
  | p :: pre', t, post, h, hne => by
    rw [show (p :: pre') ++ t :: post = p :: (pre' ++ t :: post) from rfl,
      findClientTabGo_skip username password p _ (h p (List.mem_cons_self p pre'))]
    exact findClientTabGo_append username password pre' t post
      (fun t' ht' => h t' (List.mem_cons_of_mem p ht')) hne

/-- Claim C9: the credential lookup scans client tabs in order, skipping
the reserved `Config`/`Readme` tabs; the first tab whose row scan does
not come back empty decides the result regardless of later tabs; within
a tab the first non-blank row matching both username and password wins,
and the result is that tab's field extraction with the budget-sheet id
read from its `F2` cell — or the `MissingConfiguration` error when `F2`
is blank. -/
theorem claim_C9_thm :
    (∀ (tabs : List CredTab) (username password : String) (pre : List CredTab)
        (t : CredTab) (post : List CredTab),
      clientTabs tabs = pre ++ t :: post →
      (∀ t' ∈ pre, loginScanRows t' username password t'.rows = .ok none) →
      loginScanRows t username password t.rows ≠ .ok none →
      findClientTabAndSheetIdByUser tabs username password =
        loginScanRows t username password t.rows)
    ∧ (∀ (t : CredTab) (username password : String) (pre : List Row) (row : Row)
        (post : List Row),
      (∀ r' ∈ pre, loginRowBlank r' ∨ ¬loginRowMatch r' username password) →
      loginRowMatch row username password → ¬loginRowBlank row →
      loginScanRows t username password (pre ++ row :: post) =
        if tabSheetId t = "" then
          .error ("BudgetSheetId missing in " ++ t.title ++ "!F2")
        else .ok (some (mkUserInfo t row (tabSheetId t))))
    ∧ (∀ (tabs : List CredTab) (t : CredTab), t ∈ clientTabs tabs →
        t.title ≠ "Config" ∧ t.title ≠ "Readme") := by
  refine ⟨?_, ?_, ?_⟩
  · intro tabs username password pre t post hct hpre hne
    unfold findClientTabAndSheetIdByUser
    rw [hct]
    exact findClientTabGo_append username password pre t post hpre hne
  · intro t username password pre row post hpre hm hnb
    rw [loginScanRows_eq_of_skips t username password (row :: post) pre hpre]
    exact loginScanRows_first_match t username password row post hm hnb
  · intro tabs t ht
    simp only [clientTabs, List.mem_filter, Bool.not_eq_true', Bool.or_eq_false_iff,
      decide_eq_false_iff_not] at ht
    exact ht.2

/-- Claim C9, witness: on a store with a reserved `Config` tab and one
client tab `ClientA` (F2 = `SHEET1`), looking up `mona`/`pw2` skips the
non-matching first row and returns branch `HQ`, level `L2` and
budget-sheet id `SHEET1` from `ClientA`. -/
theorem claim_C9_witness :
    findClientTabAndSheetIdByUser fixTabs "mona" "pw2" =
      Except.ok (some ⟨"ClientA", "HQ", false, "L2", false, "SHEET1"⟩) := by
  have hscan : loginScanRows
      (⟨"ClientA",
        [[Cell.s "amr", Cell.s "pw", Cell.s "Maadi", Cell.s "", Cell.s "L1"],
         [Cell.s "mona", Cell.s "pw2", Cell.s "HQ", Cell.s "", Cell.s "L2"]],
        Cell.s "SHEET1"⟩ : CredTab) "mona" "pw2"
      [[Cell.s "amr", Cell.s "pw", Cell.s "Maadi", Cell.s "", Cell.s "L1"],
       [Cell.s "mona", Cell.s "pw2", Cell.s "HQ", Cell.s "", Cell.s "L2"]] =
      Except.ok (some ⟨"ClientA", "HQ", false, "L2", false, "SHEET1"⟩) := rfl
  have h := claim_C9_thm.1 fixTabs "mona" "pw2" []
    ⟨"ClientA",
      [[Cell.s "amr", Cell.s "pw", Cell.s "Maadi", Cell.s "", Cell.s "L1"],
       [Cell.s "mona", Cell.s "pw2", Cell.s "HQ", Cell.s "", Cell.s "L2"]],
      Cell.s "SHEET1"⟩ []
    rfl (by simp)
    (by intro hcon; rw [hscan] at hcon; simp at hcon)
  rw [h]
  exact hscan

/-! # Claim C6: quantity 0 forces subtotal 0 -/

/-- Claim C6, counterexample: the claim says every OrderLine with
quantity 0 has subtotal 0, but a submitted item carrying an explicit
numeric `subtotal` keeps it verbatim: submitting
`{productCode: P1, unitPrice: 10, quantity: 0, subtotal: 50}` stores a
row whose quantity cell (column I) is 0 while its subtotal cell
(column G) is 50, not 0. -/
theorem claim_C6_cex :
    cellAt ((submitOrder fixTabs "amr" "Maadi"
        [⟨"P1", "Juice", some 10, some 0, some 50, some "Drinks"⟩]
        fixStoreEmpty fixDate).2.waiting.getD 1 []) 8 = Cell.n 0
    ∧ cellAt ((submitOrder fixTabs "amr" "Maadi"
        [⟨"P1", "Juice", some 10, some 0, some 50, some "Drinks"⟩]
        fixStoreEmpty fixDate).2.waiting.getD 1 []) 6 = Cell.n 50
    ∧ (Cell.n 50 : Cell) ≠ Cell.n 0 := by
  refine ⟨by decide, by decide, by decide⟩

/-- Claim C6, amended: quantity 0 forces subtotal 0 only when no explicit
numeric subtotal is present: (a) a submitted item with `subtotal`
absent and quantity 0 is stored with quantity cell 0 and subtotal cell 0
regardless of unit price; (b) the summary scan reports subtotal 0 for a
row whose quantity cell parses to 0 and whose subtotal cell is empty,
non-numeric, or 0 (the `parseFloat(G) || price × qty` fallback). -/
theorem claim_C6_thm :
    (∀ (d b u s : String) (item : OrderItem),
      item.subtotal = none → item.quantity.getD 0 = 0 →
      cellAt (submitRowOf d b u s item) 8 = Cell.n 0 ∧
      cellAt (submitRowOf d b u s item) 6 = Cell.n 0)
    ∧ (∀ row : Row, pIntD (cellAt row 8) = 0 →
        (parseFloatCell (cellAt row 6) = none ∨ parseFloatCell (cellAt row 6) = some 0) →
        rowSubtotal row = 0) := by
  constructor
  · intro d b u s item hsub hq
    constructor <;> simp [submitRowOf, cellAt, hsub, hq]
  · intro row h8 h6
    unfold rowSubtotal
    rcases h6 with h6 | h6 <;> simp [jsOrRat, h6, h8]

/-- Claim C6, witness: an item `{unitPrice: 10, quantity: 0}` with no
explicit subtotal is stored with subtotal cell 0, and the summary scan
reports subtotal 0 for a stored row with quantity cell 0 and blank
subtotal cell. -/
theorem claim_C6_witness :
    cellAt (submitRowOf fixDate "Maadi" "amr" "AA1"
        ⟨"P1", "Juice", some 10, some 0, none, some "Drinks"⟩) 6 = Cell.n 0 ∧
    rowSubtotal [Cell.s fixDate, Cell.s "Maadi", Cell.s "amr", Cell.s "P1",
        Cell.s "Juice", Cell.n 10, Cell.s "", Cell.s "Drinks", Cell.n 0,
        Cell.s "", Cell.s "AA1"] = 0 :=
  ⟨(claim_C6_thm.1 fixDate "Maadi" "amr" "AA1"
      ⟨"P1", "Juice", some 10, some 0, none, some "Drinks"⟩ rfl rfl).2,
   claim_C6_thm.2 [Cell.s fixDate, Cell.s "Maadi", Cell.s "amr", Cell.s "P1",
      Cell.s "Juice", Cell.n 10, Cell.s "", Cell.s "Drinks", Cell.n 0,
      Cell.s "", Cell.s "AA1"] (by with_unfolding_all rfl) (Or.inl rfl)⟩

/-! # Claim C2: failure statuses -/

/-- Claim C2, counterexample: the claim says a login attempt with wrong
credentials is answered with HTTP 400 and never a 2xx status, but the
login endpoint answers a failed credential lookup through plain
`res.json` — HTTP 200 — with `success: false`. -/
theorem claim_C2_cex :
    (validateLogin fixTabs "amr" "wrong").success = false ∧
    (validateLogin fixTabs "amr" "wrong").status = 200 ∧
    (validateLogin fixTabs "amr" "wrong").status ≠ 400 := by
  exact ⟨by decide, by decide, by decide⟩

/-- Claim C2, amended: every failure response of every endpoint carries
`success: false` with a localized message and an HTTP status among
400/403/500, with a single exception: the login endpoint's
bad-credentials failure is sent through plain `res.json`, i.e. with the
default HTTP 200 status (only its thrown store/configuration errors give
500).  The conjuncts cover, in order: validateLogin, approveOrder,
cancelOrder, updateWaitingOrder, submitOrder, approvalsSummary,
clientBranches, branchesForL2, loadOrderDataWithSpending,
previousOrders, approvalDetails, approveBranchOrder, pendingOrders,
updatePreviousOrders, ordersSummaryForL2 (also the ordersSummary and
ordersSummaryByStatus routes), orderDetailsForL2 (also the
orderDetailsByStatus route), exportOrdersExcel and exportOrderExcel —
every route of the API; the catch-all `GET *` route serves the frontend
file and sends no failure body. -/
theorem claim_C2_thm :
    (∀ (tabs : List CredTab) (u p : String),
      (validateLogin tabs u p).success = false →
      ((validateLogin tabs u p).status = 200 ∧
        (validateLogin tabs u p).message = "اسم المستخدم أو كلمة المرور غير صحيحة")
      ∨ ((validateLogin tabs u p).status = 500 ∧
        (validateLogin tabs u p).message = "حدث خطأ في النظام"))
    ∧ (∀ (tabs : List CredTab) (u oid : String) (st : Store) (now : Ym),
      (approveOrder tabs u oid st now).1.success = false →
      (approveOrder tabs u oid st now).1.status = 400 ∨
      (approveOrder tabs u oid st now).1.status = 403 ∨
      (approveOrder tabs u oid st now).1.status = 500)
    ∧ (∀ (tabs : List CredTab) (u oid : String) (st : Store) (now : Ym),
      (cancelOrder tabs u oid st now).1.success = false →
      (cancelOrder tabs u oid st now).1.status = 400 ∨
      (cancelOrder tabs u oid st now).1.status = 403 ∨
      (cancelOrder tabs u oid st now).1.status = 500)
    ∧ (∀ (tabs : List CredTab) (u oid : String) (items : List UpdItem)
        (st : Store) (now : Ym),
      (updateWaitingOrder tabs u oid items st now).1.success = false →
      (updateWaitingOrder tabs u oid items st now).1.status = 400 ∨
      (updateWaitingOrder tabs u oid items st now).1.status = 403 ∨
      (updateWaitingOrder tabs u oid items st now).1.status = 500)
    ∧ (∀ (tabs : List CredTab) (u b : String) (items : List OrderItem)
        (st : Store) (d : String),
      (submitOrder tabs u b items st d).1.success = false →
      (submitOrder tabs u b items st d).1.status = 400 ∨
      (submitOrder tabs u b items st d).1.status = 403 ∨
      (submitOrder tabs u b items st d).1.status = 500)
    ∧ (∀ (tabs : List CredTab) (u : String) (st : Store) (now : Ym),
      (approvalsSummary tabs u st now).1.success = false →
      (approvalsSummary tabs u st now).1.status = 400 ∨
      (approvalsSummary tabs u st now).1.status = 403 ∨
      (approvalsSummary tabs u st now).1.status = 500)
    ∧ (∀ (tabs : List CredTab) (u : String),
      (clientBranches tabs u).1.success = false →
      (clientBranches tabs u).1.status = 400 ∨
      (clientBranches tabs u).1.status = 500)
    ∧ (∀ (tabs : List CredTab) (u : String),
      (branchesForL2 tabs u).1.success = false →
      (branchesForL2 tabs u).1.status = 400 ∨
      (branchesForL2 tabs u).1.status = 500)
    ∧ (∀ (tabs : List CredTab) (u : String) (catalog : Sheet),
      (loadOrderDataWithSpending tabs u catalog).1.success = false →
      (loadOrderDataWithSpending tabs u catalog).1.status = 500)
    ∧ (∀ (tabs : List CredTab) (u b : String) (catalog : Sheet) (st : Store)
        (now : Ym),
      (previousOrders tabs u b catalog st now).1.success = false →
      (previousOrders tabs u b catalog st now).1.status = 500)
    ∧ (∀ (tabs : List CredTab) (u b : String) (catalog : Sheet) (st : Store)
        (now : Ym),
      (approvalDetails tabs u b catalog st now).1.success = false →
      (approvalDetails tabs u b catalog st now).1.status = 400 ∨
      (approvalDetails tabs u b catalog st now).1.status = 403 ∨
      (approvalDetails tabs u b catalog st now).1.status = 500)
    ∧ (∀ (tabs : List CredTab) (u b : String) (st : Store) (now : Ym),
      (approveBranchOrder tabs u b st now).1.success = false →
      (approveBranchOrder tabs u b st now).1.status = 400 ∨
      (approveBranchOrder tabs u b st now).1.status = 403 ∨
      (approveBranchOrder tabs u b st now).1.status = 500)
    ∧ (∀ (tabs : List CredTab) (u : String) (st : Store) (now : Ym),
      (pendingOrders tabs u st now).1.success = false →
      (pendingOrders tabs u st now).1.status = 400 ∨
      (pendingOrders tabs u st now).1.status = 403 ∨
      (pendingOrders tabs u st now).1.status = 500)
    ∧ (∀ (tabs : List CredTab) (u b : String) (items : List UpdPrevItem)
        (st : Store) (now : Ym),
      (updatePreviousOrders tabs u b items st now).1.success = false →
      (updatePreviousOrders tabs u b items st now).1.status = 400 ∨
      (updatePreviousOrders tabs u b items st now).1.status = 500)
    ∧ (∀ (tabs : List CredTab) (u : String) (catalog : Sheet) (st : Store)
        (now : Ym),
      (ordersSummaryForL2 tabs u catalog st now).1.success = false →
      (ordersSummaryForL2 tabs u catalog st now).1.status = 400 ∨
      (ordersSummaryForL2 tabs u catalog st now).1.status = 403 ∨
      (ordersSummaryForL2 tabs u catalog st now).1.status = 500)
    ∧ (∀ (tabs : List CredTab) (u b sr sq : String) (catalog : Sheet)
        (st : Store) (now : Ym),
      (orderDetailsForL2 tabs u b sr sq catalog st now).1.success = false →
      (orderDetailsForL2 tabs u b sr sq catalog st now).1.status = 400 ∨
      (orderDetailsForL2 tabs u b sr sq catalog st now).1.status = 403 ∨
      (orderDetailsForL2 tabs u b sr sq catalog st now).1.status = 500)
    ∧ (∀ (tabs : List CredTab) (u sp : String) (st : Store) (now : Ym),
      (exportOrdersExcel tabs u sp st now).1.success = false →
      (exportOrdersExcel tabs u sp st now).1.status = 400 ∨
      (exportOrdersExcel tabs u sp st now).1.status = 403 ∨
      (exportOrdersExcel tabs u sp st now).1.status = 500)
    ∧ (∀ (tabs : List CredTab) (u sq : String) (st : Store) (now : Ym),
      (exportOrderExcel tabs u sq st now).1.success = false →
      (exportOrderExcel tabs u sq st now).1.status = 400 ∨
      (exportOrderExcel tabs u sq st now).1.status = 403 ∨
      (exportOrderExcel tabs u sq st now).1.status = 500) := by
  refine ⟨?_, ?_, ?_, ?_, ?_, ?_, ?_, ?_, ?_, ?_, ?_, ?_, ?_, ?_, ?_, ?_, ?_, ?_⟩
  · intro tabs u p
    simp only [validateLogin]
    repeat' split
    all_goals simp [mkFail, okResp]
  · intro tabs u oid st now
    simp only [approveOrder]
    repeat' split
    all_goals simp [mkFail, okResp]
  · intro tabs u oid st now
    simp only [cancelOrder]
    repeat' split
    all_goals simp [mkFail, okResp]
  · intro tabs u oid items st now
    simp only [updateWaitingOrder]
    repeat' split
    all_goals simp [mkFail, okResp]
  · intro tabs u b items st d
    simp only [submitOrder]
    repeat' split
    all_goals simp [mkFail, okResp]
  · intro tabs u st now
    simp only [approvalsSummary]
    repeat' split
    all_goals simp [mkFail, okResp]
  · intro tabs u
    simp only [clientBranches]
    repeat' split
    all_goals simp [mkFail, okResp]
  · intro tabs u
    simp only [branchesForL2]
    repeat' split
    all_goals simp [mkFail, okResp]
  · intro tabs u catalog
    simp only [loadOrderDataWithSpending]
    repeat' split
    all_goals simp [mkFail, okResp]
  · intro tabs u b catalog st now
    simp only [previousOrders]
    repeat' split
    all_goals simp [mkFail, okResp]
  · intro tabs u b catalog st now
    simp only [approvalDetails]
    repeat' split
    all_goals simp [mkFail, okResp]
  · intro tabs u b st now
    simp only [approveBranchOrder]
    repeat' split
    all_goals simp [mkFail, okResp]
  · intro tabs u st now
    simp only [pendingOrders]
    repeat' split
    all_goals simp [mkFail, okResp]
  · intro tabs u b items st now
    simp only [updatePreviousOrders]
    repeat' split
    all_goals simp [mkFail, okResp]
  · intro tabs u catalog st now
    simp only [ordersSummaryForL2]
    repeat' split
    all_goals simp [mkFail, okResp]
  · intro tabs u b sr sq catalog st now
    simp only [orderDetailsForL2]
    repeat' split
    all_goals simp [mkFail, okResp]
  · intro tabs u sp st now
    simp only [exportOrdersExcel]
    repeat' split
    all_goals simp [mkFail, okResp]
  · intro tabs u sq st now
    simp only [exportOrderExcel]
    repeat' split
    all_goals simp [mkFail, okResp]

/-- Claim C2, witness: a wrong-password login on the fixture store is a
200 failure with the localized bad-credentials message, an L1 user's
approve attempt fails with a status among 400/403/500, and so does an L1
user's pending-orders listing. -/
theorem claim_C2_witness :
    (((validateLogin fixTabs "amr" "wrong").status = 200 ∧
      (validateLogin fixTabs "amr" "wrong").message =
        "اسم المستخدم أو كلمة المرور غير صحيحة")
     ∨ ((validateLogin fixTabs "amr" "wrong").status = 500 ∧
      (validateLogin fixTabs "amr" "wrong").message = "حدث خطأ في النظام"))
    ∧ ((approveOrder fixTabs "amr" "AA1" fixStore fixNow).1.status = 400 ∨
       (approveOrder fixTabs "amr" "AA1" fixStore fixNow).1.status = 403 ∨
       (approveOrder fixTabs "amr" "AA1" fixStore fixNow).1.status = 500)
    ∧ ((pendingOrders fixTabs "amr" fixStore fixNow).1.status = 400 ∨
       (pendingOrders fixTabs "amr" fixStore fixNow).1.status = 403 ∨
       (pendingOrders fixTabs "amr" fixStore fixNow).1.status = 500) :=
  ⟨claim_C2_thm.1 fixTabs "amr" "wrong" (by decide),
   claim_C2_thm.2.1 fixTabs "amr" "AA1" fixStore fixNow (by decide),
   claim_C2_thm.2.2.2.2.2.2.2.2.2.2.2.2.1 fixTabs "amr" fixStore fixNow (by decide)⟩

end Vndro
